import Mathlib

/-!
Verification development for the juriscraper scraper-driver engine.

This file gives a shallow embedding, in Lean 4, of the request data model and
the driver algorithms of `juriscraper/scraper_driver` (files `data_types.py`,
`driver/sync_driver.py`, `driver/async_driver.py`), together with theorems
about the embedded definitions.

Modelling conventions:
* Python `dict` values are modelled as association lists in which each key
  occurs at most once; `dictSet` / `dictUpdate` reproduce the in-place
  override-or-append semantics of Python `dict.__setitem__` / `dict.update`,
  including insertion order.
* Python machine-independent integers are `Nat` / `Int`; 32-bit arithmetic in
  SHA-256 is `Nat` arithmetic reduced modulo `2 ^ 32`.
* Strings appearing as dictionary values and query/body values are modelled as
  Lean `String`s; the Python `repr` of such strings is reproduced for
  quote-free, escape-free text, which is the only form the engine hashes.
* Python standard-library collaborators (`hashlib.sha256`, `urllib.parse`,
  `heapq`) are external to the repository; they are embedded here following
  their documented, standard behaviour (FIPS 180-4 for SHA-256; CPython
  `urllib.parse` for URL handling; a stable min-priority queue for `heapq`,
  which pops the lexicographically smallest `(priority, counter, ...)` entry —
  counters are unique, so the third tuple component is never compared).
-/

namespace Juriscraper

/-! ## Byte and hex utilities -/

/-- Lower-case hex digit for a value below 16. -/
def hexDigit (n : Nat) : Char :=
  if n < 10 then Char.ofNat (48 + n) else Char.ofNat (87 + n)

/-- Two-digit lower-case hex rendering of one byte. -/
def byteToHex (b : Nat) : List Char :=
  [hexDigit (b / 16), hexDigit (b % 16)]

/-- Lower-case hex string of a byte list (as `bytes.hex()` / hexdigest). -/
def bytesToHex (bs : List Nat) : String :=
  String.mk (bs.flatMap byteToHex)

/-- UTF-8 encoding of one character (standard 1-4 byte encoding). -/
def utf8Char (c : Char) : List Nat :=
  let n := c.toNat
  if n < 128 then [n]
  else if n < 2048 then [192 + n / 64, 128 + n % 64]
  else if n < 65536 then [224 + n / 4096, 128 + (n / 64) % 64, 128 + n % 64]
  else [240 + n / 262144, 128 + (n / 4096) % 64, 128 + (n / 64) % 64, 128 + n % 64]

/-- UTF-8 encoding of a string, as a list of byte values (`str.encode("utf-8")`). -/
def utf8Encode (s : String) : List Nat :=
  s.data.flatMap utf8Char

/-! ## SHA-256 (FIPS 180-4), the behaviour of `hashlib.sha256`

32-bit words are `Nat`s kept below `2 ^ 32` by explicit reduction. -/

/-- Reduce to a 32-bit word. -/
def w32 (x : Nat) : Nat := x % 4294967296

/-- Right-rotation of a 32-bit word. -/
def rotr32 (x n : Nat) : Nat :=
  w32 ((x >>> n) ||| ((x % 2 ^ n) <<< (32 - n)))

/-- Bitwise complement of a 32-bit word. -/
def not32 (x : Nat) : Nat := x ^^^ 4294967295

/-- SHA-256 `Ch` function. -/
def shaCh (e f g : Nat) : Nat := (e &&& f) ^^^ (not32 e &&& g)

/-- SHA-256 `Maj` function. -/
def shaMaj (a b c : Nat) : Nat := (a &&& b) ^^^ (a &&& c) ^^^ (b &&& c)

/-- SHA-256 big sigma 0. -/
def bigSigma0 (x : Nat) : Nat := rotr32 x 2 ^^^ rotr32 x 13 ^^^ rotr32 x 22

/-- SHA-256 big sigma 1. -/
def bigSigma1 (x : Nat) : Nat := rotr32 x 6 ^^^ rotr32 x 11 ^^^ rotr32 x 25

/-- SHA-256 small sigma 0. -/
def smallSigma0 (x : Nat) : Nat := rotr32 x 7 ^^^ rotr32 x 18 ^^^ (x >>> 3)

/-- SHA-256 small sigma 1. -/
def smallSigma1 (x : Nat) : Nat := rotr32 x 17 ^^^ rotr32 x 19 ^^^ (x >>> 10)

/-- The 64 SHA-256 round constants. -/
def shaK : List Nat :=
  [1116352408, 1899447441, 3049323471, 3921009573, 961987163,
   1508970993, 2453635748, 2870763221, 3624381080, 310598401,
   607225278, 1426881987, 1925078388, 2162078206, 2614888103,
   3248222580, 3835390401, 4022224774, 264347078, 604807628,
   770255983, 1249150122, 1555081692, 1996064986, 2554220882,
   2821834349, 2952996808, 3210313671, 3336571891, 3584528711,
   113926993, 338241895, 666307205, 773529912, 1294757372,
   1396182291, 1695183700, 1986661051, 2177026350, 2456956037,
   2730485921, 2820302411, 3259730800, 3345764771, 3516065817,
   3600352804, 4094571909, 275423344, 430227734, 506948616,
   659060556, 883997877, 958139571, 1322822218, 1537002063,
   1747873779, 1955562222, 2024104815, 2227730452, 2361852424,
   2428436474, 2756734187, 3204031479, 3329325298]

/-- SHA-256 padding: append `0x80`, zeros to 56 mod 64, then the 64-bit
big-endian bit length. -/
def shaPad (msg : List Nat) : List Nat :=
  let len := msg.length
  let bitLen := 8 * len
  let zeros := (120 - ((len + 1) % 64)) % 64
  msg ++ [128] ++ List.replicate zeros 0 ++
    [bitLen / 2 ^ 56 % 256, bitLen / 2 ^ 48 % 256, bitLen / 2 ^ 40 % 256,
     bitLen / 2 ^ 32 % 256, bitLen / 2 ^ 24 % 256, bitLen / 2 ^ 16 % 256,
     bitLen / 2 ^ 8 % 256, bitLen % 256]

/-- Split a byte list into 64-byte blocks; the fuel (consumed once per block,
each block eats at least one byte) keeps the recursion structural so the
kernel can evaluate digests. -/
def toBlocksFuel : Nat → List Nat → List (List Nat)
  | 0, _ => []
  | fuel + 1, l =>
      match l with
      | [] => []
      | x :: rest => ((x :: rest).take 64) :: toBlocksFuel fuel ((x :: rest).drop 64)

/-- Split a byte list into 64-byte blocks. -/
def toBlocks (l : List Nat) : List (List Nat) :=
  toBlocksFuel l.length l

/-- Big-endian 32-bit words from a byte list. -/
def bytesToWords : List Nat → List Nat
  | b0 :: b1 :: b2 :: b3 :: rest =>
      (b0 * 16777216 + b1 * 65536 + b2 * 256 + b3) :: bytesToWords rest
  | _ => []

/-- Message-schedule extension: `acc` holds the already-computed words most
recent first; `n` more words are produced. -/
def shaSchedExt (acc : List Nat) : Nat → List Nat
  | 0 => acc.reverse
  | n + 1 =>
      let x := w32 (smallSigma1 (acc.getD 1 0) + acc.getD 6 0 +
                    smallSigma0 (acc.getD 14 0) + acc.getD 15 0)
      shaSchedExt (x :: acc) n

/-- Working state of the SHA-256 compression function. -/
structure ShaState where
  a : Nat
  b : Nat
  c : Nat
  d : Nat
  e : Nat
  f : Nat
  g : Nat
  h : Nat

/-- One round of the SHA-256 compression function. -/
def shaRound (s : ShaState) (kw : Nat × Nat) : ShaState :=
  let t1 := w32 (s.h + bigSigma1 s.e + shaCh s.e s.f s.g + kw.1 + kw.2)
  let t2 := w32 (bigSigma0 s.a + shaMaj s.a s.b s.c)
  ShaState.mk (w32 (t1 + t2)) s.a s.b s.c (w32 (s.d + t1)) s.e s.f s.g

/-- Process one 64-byte block. -/
def shaProcessBlock (st : ShaState) (block : List Nat) : ShaState :=
  let ws := shaSchedExt (bytesToWords block).reverse 48
  let s := (shaK.zip ws).foldl shaRound st
  ShaState.mk (w32 (st.a + s.a)) (w32 (st.b + s.b)) (w32 (st.c + s.c))
    (w32 (st.d + s.d)) (w32 (st.e + s.e)) (w32 (st.f + s.f))
    (w32 (st.g + s.g)) (w32 (st.h + s.h))

/-- The SHA-256 initial hash value. -/
def shaInit : ShaState :=
  ShaState.mk 1779033703 3144134277 1013904242 2773480762
    1359893119 2600822924 528734635 1541459225

/-- Big-endian bytes of one 32-bit word. -/
def wordToBytes (w : Nat) : List Nat :=
  [w / 16777216 % 256, w / 65536 % 256, w / 256 % 256, w % 256]

/-- SHA-256 digest (32 bytes) of a byte list. -/
def sha256 (msg : List Nat) : List Nat :=
  let fin := (toBlocks (shaPad msg)).foldl shaProcessBlock shaInit
  wordToBytes fin.a ++ wordToBytes fin.b ++ wordToBytes fin.c ++
  wordToBytes fin.d ++ wordToBytes fin.e ++ wordToBytes fin.f ++
  wordToBytes fin.g ++ wordToBytes fin.h

/-- `hashlib.sha256(s.encode("utf-8")).hexdigest()`. -/
def sha256hex (s : String) : String :=
  bytesToHex (sha256 (utf8Encode s))

/-! ## Python dictionaries, ordering, and `repr` -/

/-- A Python `dict` as an insertion-ordered association list in which each key
occurs at most once. -/
abbrev PyDict (α : Type) := List (String × α)

/-- `k in d`. -/
def dictContains {α : Type} (d : PyDict α) (k : String) : Bool :=
  d.any (fun p => p.1 == k)

/-- `d.get(k)` / `d[k]` as an option (first — and for a well-formed dict the
only — binding of the key). -/
def dictGet? {α : Type} (d : PyDict α) (k : String) : Option α :=
  match d with
  | [] => none
  | p :: rest => if p.1 == k then some p.2 else dictGet? rest k

/-- `d[k] = v`: replace in place if the key exists, else append. -/
def dictSet {α : Type} (d : PyDict α) (k : String) (v : α) : PyDict α :=
  match d with
  | [] => [(k, v)]
  | p :: rest => if p.1 == k then (k, v) :: rest else p :: dictSet rest k v

/-- `d.update(e)` / `{**d, **e}`: apply the entries of `e` in order. -/
def dictUpdate {α : Type} (d e : PyDict α) : PyDict α :=
  e.foldl (fun acc p => dictSet acc p.1 p.2) d

/-- Python string comparison `a < b`: lexicographic on code points. -/
def charListLt : List Char → List Char → Bool
  | [], [] => false
  | [], _ :: _ => true
  | _ :: _, [] => false
  | a :: as, b :: bs =>
      if a.toNat < b.toNat then true
      else if b.toNat < a.toNat then false
      else charListLt as bs

/-- `a < b` on Python strings. -/
def pyStrLt (a b : String) : Bool := charListLt a.data b.data

/-- `a <= b` on Python strings. -/
def pyStrLe (a b : String) : Bool := pyStrLt a b || a == b

/-- Python tuple comparison `(a1, a2) <= (b1, b2)` for string pairs. -/
def pyPairLe (p q : String × String) : Bool :=
  if p.1 == q.1 then pyStrLe p.2 q.2 else pyStrLt p.1 q.1

/-- `p <= q` comparing first components only (for `sorted(key=lambda x: x[0])`). -/
def pyFstLe (p q : String × String) : Bool := pyStrLe p.1 q.1

/-- Insert `x` after every already-placed element `y` with `le y x`; placing
each successive element this way reproduces the stable ascending order of
Python `sorted`. -/
def pyInsert {α : Type} (le : α → α → Bool) (x : α) : List α → List α
  | [] => [x]
  | y :: ys => if le y x then y :: pyInsert le x ys else x :: y :: ys

/-- Python `sorted(l)` for the total boolean order `le`: stable, ascending. -/
def pySorted {α : Type} (le : α → α → Bool) (l : List α) : List α :=
  l.foldl (fun acc x => pyInsert le x acc) []

/-- Python `repr` of a quote-free, escape-free string. -/
def pyReprStr (s : String) : String := "\x27" ++ s ++ "\x27"

/-- Python `repr` of a pair of strings. -/
def pyReprPair (p : String × String) : String :=
  "(" ++ pyReprStr p.1 ++ ", " ++ pyReprStr p.2 ++ ")"

/-- Python `str` of a list of string pairs. -/
def pyReprPairList (l : List (String × String)) : String :=
  "[" ++ String.intercalate ", " (l.map pyReprPair) ++ "]"

/-- One byte inside a Python `bytes` repr. -/
def pyReprBytesChar (b : Nat) : String :=
  if b == 92 then "\\\\"
  else if b == 39 then "\\\x27"
  else if b == 9 then "\\t"
  else if b == 10 then "\\n"
  else if b == 13 then "\\r"
  else if 32 ≤ b && b ≤ 126 then String.mk [Char.ofNat b]
  else "\\x" ++ String.mk (byteToHex b)

/-- Python `str` of a `bytes` value. -/
def pyReprBytes (bs : List Nat) : String :=
  "b\x27" ++ String.join (bs.map pyReprBytesChar) ++ "\x27"

/-! ## The HTTP request-parameter record (`HTTPRequestParams`)

Query/body values are modelled as strings; file objects are opaque handles. -/

/-- HTTP methods supported by scrapers (`HttpMethod`). -/
inductive HttpMethod where
  | GET
  | OPTIONS
  | POST
  | PUT
  | DELETE
  | PATCH
  | HEAD
deriving DecidableEq

/-- `HttpMethod.value`. -/
def HttpMethod.value : HttpMethod → String
  | .GET => "GET"
  | .OPTIONS => "OPTIONS"
  | .POST => "POST"
  | .PUT => "PUT"
  | .DELETE => "DELETE"
  | .PATCH => "PATCH"
  | .HEAD => "HEAD"

/-- `QueryParams = dict | list[tuple] | bytes | None`. -/
inductive PyParams where
  | pNone
  | pDict (entries : PyDict String)
  | pList (entries : List (String × String))
  | pBytes (bs : List Nat)
deriving DecidableEq

/-- `RequestData = dict | list[tuple] | bytes | BinaryIO | None`. -/
inductive PyData where
  | dNone
  | dDict (entries : PyDict String)
  | dList (entries : List (String × String))
  | dBytes (bs : List Nat)
  | dFile (handle : Nat)
deriving DecidableEq

/-- JSON-serializable bodies (modelled with string leaves). -/
inductive PyJson where
  | jStr (s : String)
  | jNum (n : Int)
  | jBool (b : Bool)
  | jNull
  | jArr (elems : List String)
  | jObj (fields : PyDict String)
deriving DecidableEq

/-- `CookiesType = dict | CookieJar | None`; a jar is an opaque handle. -/
inductive PyCookies where
  | cNone
  | cDict (entries : PyDict String)
  | cJar (handle : Nat)
deriving DecidableEq

/-- `TimeoutType = float | (float, float) | None` (rationals stand for floats). -/
inductive PyTimeout where
  | secs (q : Rat)
  | pair (connect read : Rat)
deriving DecidableEq

/-- `VerifyType = bool | str`. -/
inductive PyVerify where
  | vBool (b : Bool)
  | vPath (s : String)
deriving DecidableEq

/-- `CertType = str | (str, str) | None`. -/
inductive PyCert where
  | certPath (s : String)
  | certPair (c k : String)
deriving DecidableEq

/-- `HTTPRequestParams` (frozen dataclass), with the source defaults. -/
structure HTTPRequestParams where
  method : HttpMethod
  url : String
  params : PyParams := .pNone
  data : PyData := .dNone
  json : Option PyJson := none
  headers : Option (PyDict String) := none
  cookies : PyCookies := .cNone
  files : Option (PyDict String) := none
  auth : Option (String × String) := none
  timeout : Option PyTimeout := none
  allow_redirects : Bool := true
  proxies : Option (PyDict String) := none
  verify : PyVerify := .vBool true
  stream : Bool := false
  cert : Option PyCert := none
deriving DecidableEq

/-! ## The default deduplication key (`_generate_deduplication_key`) -/

/-- Python truthiness of a `QueryParams` value. -/
def PyParams.truthy : PyParams → Bool
  | .pNone => false
  | .pDict d => !d.isEmpty
  | .pList l => !l.isEmpty
  | .pBytes b => !b.isEmpty

/-- Python truthiness of a `RequestData` value. -/
def PyData.truthy : PyData → Bool
  | .dNone => false
  | .dDict d => !d.isEmpty
  | .dList l => !l.isEmpty
  | .dBytes b => !b.isEmpty
  | .dFile _ => true

/-- `json.dumps` of a modelled JSON value (default separators). -/
def pyJsonDumps : PyJson → String
  | .jStr s => "\"" ++ s ++ "\""
  | .jNum n => toString n
  | .jBool b => if b then "true" else "false"
  | .jNull => "null"
  | .jArr es => "[" ++ String.intercalate ", " (es.map (fun e => "\"" ++ e ++ "\"")) ++ "]"
  | .jObj fs =>
      "\x7b" ++
        String.intercalate ", "
          (fs.map (fun p => "\"" ++ p.1 ++ "\": \"" ++ p.2 ++ "\"")) ++
      "\x7d"

/-- `json.dumps(.., sort_keys=True)`: objects have their fields sorted by key. -/
def pyJsonDumpsSorted : PyJson → String
  | .jObj fs => pyJsonDumps (.jObj (pySorted pyFstLe fs))
  | j => pyJsonDumps j

/-- The string str-ed into the `?{params_str}` suffix of the url part. -/
def dedupParamsStr : PyParams → String
  | .pNone => ""
  | .pDict d => pyReprPairList (pySorted pyPairLe d)
  | .pList l => pyReprPairList (pySorted pyPairLe l)
  | .pBytes b => pyReprBytes b

/-- The body part of the key: dicts sorted by key, pair lists sorted by first
element (stable), bytes via `str`, file objects via their opaque `str`. -/
def dedupDataStr : PyData → String
  | .dNone => ""
  | .dDict d => pyReprPairList (pySorted pyPairLe d)
  | .dList l => pyReprPairList (pySorted pyFstLe l)
  | .dBytes b => pyReprBytes b
  | .dFile h => "<binary-file " ++ toString h ++ ">"

/-- The pre-image string hashed by `_generate_deduplication_key`:
`url(+sorted query)` then `|` then sorted body, then `|json` when present. -/
def dedupCombined (p : HTTPRequestParams) : String :=
  let url_str :=
    if p.params.truthy then p.url ++ "?" ++ dedupParamsStr p.params else p.url
  let data_str := if p.data.truthy then dedupDataStr p.data else ""
  let data_str :=
    match p.json with
    | some j =>
        data_str ++ "|" ++
          (match j with
           | .jObj _ => pyJsonDumpsSorted j
           | _ => pyJsonDumps j)
    | none => data_str
  url_str ++ "|" ++ data_str

/-- `_generate_deduplication_key` (data_types.py line 315): SHA-256 hex of the
combined url/query/body string. The HTTP method is not part of the pre-image. -/
def _generate_deduplication_key (request_params : HTTPRequestParams) : String :=
  sha256hex (dedupCombined request_params)

/-! ## `urllib.parse`: quote / unquote / urlparse / urlunparse / urljoin

These reproduce CPython `urllib.parse` (an out-of-repository collaborator).
UTF-8 error replacement is modelled bytewise; the engine only feeds it text
whose escapes decode cleanly. -/

/-- U+FFFD. -/
def replacementChar : Char := Char.ofNat 65533

/-- A UTF-8 continuation byte. -/
def isCont (b : Nat) : Bool := 128 ≤ b && b ≤ 191

/-- UTF-8 decoding with replacement on malformed input; fuelled (one unit per
consumed byte) so the recursion is structural and kernel-evaluable. -/
def utf8DecodeFuel : Nat → List Nat → List Char
  | 0, _ => []
  | fuel + 1, l =>
      match l with
      | [] => []
      | b :: rest =>
          if b < 128 then Char.ofNat b :: utf8DecodeFuel fuel rest
          else if 192 ≤ b && b ≤ 223 then
            match rest with
            | a :: rest2 =>
                if isCont a then
                  Char.ofNat ((b - 192) * 64 + (a - 128)) :: utf8DecodeFuel fuel rest2
                else replacementChar :: utf8DecodeFuel fuel rest
            | [] => [replacementChar]
          else if 224 ≤ b && b ≤ 239 then
            match rest with
            | a :: a2 :: rest2 =>
                if isCont a && isCont a2 then
                  Char.ofNat ((b - 224) * 4096 + (a - 128) * 64 + (a2 - 128)) ::
                    utf8DecodeFuel fuel rest2
                else replacementChar :: utf8DecodeFuel fuel rest
            | _ => replacementChar :: utf8DecodeFuel fuel rest
          else if 240 ≤ b && b ≤ 247 then
            match rest with
            | a :: a2 :: a3 :: rest2 =>
                if isCont a && isCont a2 && isCont a3 then
                  Char.ofNat ((b - 240) * 262144 + (a - 128) * 4096 +
                      (a2 - 128) * 64 + (a3 - 128)) :: utf8DecodeFuel fuel rest2
                else replacementChar :: utf8DecodeFuel fuel rest
            | _ => replacementChar :: utf8DecodeFuel fuel rest
          else replacementChar :: utf8DecodeFuel fuel rest

/-- UTF-8 decoding with replacement on malformed input. -/
def utf8Decode (l : List Nat) : List Char :=
  utf8DecodeFuel l.length l

/-- Value of a hex digit character, if it is one. -/
def hexVal? (c : Char) : Option Nat :=
  let n := c.toNat
  if 48 ≤ n && n ≤ 57 then some (n - 48)
  else if 97 ≤ n && n ≤ 102 then some (n - 87)
  else if 65 ≤ n && n ≤ 70 then some (n - 55)
  else none

/-- Percent-decoding to bytes, fuelled for structural recursion: each valid
`%XX` becomes one byte, everything else contributes its UTF-8 bytes
(`urllib.parse.unquote`, byte stage). -/
def unquoteBytesFuel : Nat → List Char → List Nat
  | 0, _ => []
  | fuel + 1, l =>
      match l with
      | [] => []
      | c :: rest =>
          if c = Char.ofNat 37 then
            match rest with
            | a :: b :: rest2 =>
                match hexVal? a, hexVal? b with
                | some x, some y => (16 * x + y) :: unquoteBytesFuel fuel rest2
                | _, _ => utf8Char c ++ unquoteBytesFuel fuel rest
            | _ => utf8Char c ++ unquoteBytesFuel fuel rest
          else utf8Char c ++ unquoteBytesFuel fuel rest

/-- Percent-decoding to bytes (`urllib.parse.unquote`, byte stage). -/
def unquoteBytes (l : List Char) : List Nat :=
  unquoteBytesFuel l.length l

/-- `urllib.parse.unquote(s)`. -/
def unquote (s : String) : String :=
  String.mk (utf8Decode (unquoteBytes s.data))

/-- The characters never quoted by `urllib.parse.quote`. -/
def alwaysSafeChar (c : Char) : Bool :=
  let n := c.toNat
  (65 ≤ n && n ≤ 90) || (97 ≤ n && n ≤ 122) || (48 ≤ n && n ≤ 57) ||
    c == Char.ofNat 95 || c == Char.ofNat 46 || c == Char.ofNat 45 ||
    c == Char.ofNat 126

/-- Upper-case hex digit. -/
def hexDigitU (n : Nat) : Char :=
  if n < 10 then Char.ofNat (48 + n) else Char.ofNat (55 + n)

/-- Quote one byte (`%XX` upper-case) unless it is safe. -/
def quoteByte (safe : String) (b : Nat) : String :=
  if b < 128 && (alwaysSafeChar (Char.ofNat b) || safe.data.contains (Char.ofNat b))
  then String.mk [Char.ofNat b]
  else String.mk [Char.ofNat 37, hexDigitU (b / 16), hexDigitU (b % 16)]

/-- `urllib.parse.quote(s, safe)`. -/
def quote (s safe : String) : String :=
  String.join ((utf8Encode s).map (quoteByte safe))

/-- The result record of `urlsplit`. -/
structure SplitResult where
  scheme : String
  netloc : String
  path : String
  query : String
  fragment : String
deriving DecidableEq

/-- The result record of `urlparse` (path params split out). -/
structure ParseResult where
  scheme : String
  netloc : String
  path : String
  pathParams : String
  query : String
  fragment : String
deriving DecidableEq

/-- CPython removes tab, CR and LF from URLs before parsing. -/
def removeUnsafe (s : String) : String :=
  String.mk (s.data.filter
    (fun c => !(c == Char.ofNat 9 || c == Char.ofNat 13 || c == Char.ofNat 10)))

/-- Characters allowed in a scheme token. -/
def isSchemeChar (c : Char) : Bool :=
  let n := c.toNat
  (65 ≤ n && n ≤ 90) || (97 ≤ n && n ≤ 122) || (48 ≤ n && n ≤ 57) ||
    c == Char.ofNat 43 || c == Char.ofNat 45 || c == Char.ofNat 46

/-- An ASCII letter. -/
def isAsciiAlpha (c : Char) : Bool :=
  let n := c.toNat
  (65 ≤ n && n ≤ 90) || (97 ≤ n && n ≤ 122)

/-- ASCII lower-casing. -/
def toLowerAscii (s : String) : String :=
  String.mk (s.data.map
    (fun c => if 65 ≤ c.toNat && c.toNat ≤ 90 then Char.ofNat (c.toNat + 32) else c))

/-- Split at the first occurrence of `c`, dropping the separator. -/
def splitFirstAux (c : Char) (acc : List Char) :
    List Char → Option (List Char × List Char)
  | [] => none
  | x :: xs => if x == c then some (acc.reverse, xs) else splitFirstAux c (x :: acc) xs

/-- `s.split(c, 1)` when `c` occurs, else `(s, "")`. -/
def splitFirstD (s : String) (c : Char) : String × String :=
  match splitFirstAux c [] s.data with
  | some (front, back) => (String.mk front, String.mk back)
  | none => (s, "")

/-- Does the string contain the character? -/
def strContainsChar (s : String) (c : Char) : Bool := s.data.contains c

/-- `_splitnetloc`: the netloc extends to the first `/`, `?` or `#`. -/
def splitNetloc (s : String) : String × String :=
  let p := s.data.span
    (fun c => !(c == Char.ofNat 47 || c == Char.ofNat 63 || c == Char.ofNat 35))
  (String.mk p.1, String.mk p.2)

/-- The scheme-extraction step of `urlsplit`: a leading alpha-led token of
scheme characters before `:` becomes the (lower-cased) scheme, otherwise the
caller's default scheme is kept and the url is left whole. -/
def splitScheme (url scheme : String) : String × String :=
  match splitFirstAux (Char.ofNat 58) [] url.data with
  | some (front, rest) =>
      if front.length > 0 && isAsciiAlpha (front.headD (Char.ofNat 0)) &&
          front.all isSchemeChar
      then (toLowerAscii (String.mk front), String.mk rest)
      else (scheme, url)
  | none => (scheme, url)

/-- The netloc/fragment/query steps of `urlsplit`, after scheme
extraction. -/
def urlsplitTail (sp : String × String) (allow_fragments : Bool) : SplitResult :=
  let scheme := sp.1
  let url := sp.2
  let np :=
    if url.take 2 == "//" then splitNetloc (url.drop 2) else ("", url)
  let netloc := np.1
  let url := np.2
  let fp :=
    if allow_fragments && strContainsChar url (Char.ofNat 35)
    then splitFirstD url (Char.ofNat 35) else (url, "")
  let url := fp.1
  let fragment := fp.2
  let qp :=
    if strContainsChar url (Char.ofNat 63)
    then splitFirstD url (Char.ofNat 63) else (url, "")
  SplitResult.mk scheme netloc qp.1 qp.2 fragment

/-- `urllib.parse.urlsplit(url, scheme, allow_fragments)` (bracket-host
validation elided: the engine never produces bracketed hosts). -/
def urlsplit (url0 scheme0 : String) (allow_fragments : Bool) : SplitResult :=
  urlsplitTail (splitScheme (removeUnsafe url0) (removeUnsafe scheme0))
    allow_fragments

/-- Schemes for which `urlparse` splits `;params` off the path. -/
def uses_params : List String :=
  ["", "ftp", "hdl", "prospero", "http", "imap", "https", "shttp", "rtsp",
   "rtspu", "sip", "sips", "mms", "sftp", "tel"]

/-- Index-free `_splitparams`: split the path at the first `;` at or after the
last `/` (or the first `;` at all when there is no `/`). -/
def _splitparams (url : String) : String × String :=
  if strContainsChar url (Char.ofNat 47) then
    let r := url.data.reverse
    let afterRev := r.takeWhile (fun c => !(c == Char.ofNat 47))
    let front := (r.drop afterRev.length).reverse
    let post := afterRev.reverse
    if post.contains (Char.ofNat 59) then
      match splitFirstAux (Char.ofNat 59) [] post with
      | some (a, b) => (String.mk (front ++ a), String.mk b)
      | none => (url, "")
    else (url, "")
  else splitFirstD url (Char.ofNat 59)

/-- `urllib.parse.urlparse(url, scheme, allow_fragments)`. -/
def pyUrlparse (url scheme0 : String) (allow_fragments : Bool) : ParseResult :=
  let s := urlsplit url scheme0 allow_fragments
  if uses_params.contains s.scheme && strContainsChar s.path (Char.ofNat 59) then
    let p := _splitparams s.path
    ParseResult.mk s.scheme s.netloc p.1 p.2 s.query s.fragment
  else
    ParseResult.mk s.scheme s.netloc s.path "" s.query s.fragment

/-- `urllib.parse.urlunsplit`. -/
def urlunsplit (scheme netloc path query fragment : String) : String :=
  let url := path
  let url :=
    if netloc != "" || (url != "" && url.take 2 == "//") then
      ("//" ++ netloc ++ (if url != "" && url.take 1 != "/" then "/" ++ url else url))
    else url
  let url := if scheme != "" then scheme ++ ":" ++ url else url
  let url := if query != "" then url ++ "?" ++ query else url
  if fragment != "" then url ++ "#" ++ fragment else url

/-- `urllib.parse.urlunparse` over the six components. -/
def pyUrlunparse (scheme netloc path pathParams query fragment : String) : String :=
  let url := if pathParams != "" then path ++ ";" ++ pathParams else path
  urlunsplit scheme netloc url query fragment

/-- Schemes that support relative joining in CPython. -/
def uses_relative : List String :=
  ["", "ftp", "http", "gopher", "nntp", "imap", "wais", "file", "https",
   "shttp", "mms", "prospero", "rtsp", "rtspu", "sftp", "svn", "svn+ssh",
   "ws", "wss"]

/-- Schemes that use a network location in CPython. -/
def uses_netloc : List String :=
  ["", "ftp", "http", "gopher", "nntp", "telnet", "imap", "wais", "file",
   "mms", "https", "shttp", "snews", "prospero", "rtsp", "rtspu", "rsync",
   "svn", "svn+ssh", "sftp", "nfs", "git", "git+ssh", "ws", "wss"]

/-- `segments[1:-1] = filter(None, segments[1:-1])`. -/
def filterMiddle : List String → List String
  | [] => []
  | [x] => [x]
  | x :: xs => x :: (xs.dropLast.filter (fun s => !(s == ""))) ++ xs.getLast?.toList

/-- `s.split(c)` keeping empty fields (Python `str.split` with a separator). -/
def splitCharAux (c : Char) (cur : List Char) : List Char → List String
  | [] => [String.mk cur.reverse]
  | x :: xs =>
      if x == c then String.mk cur.reverse :: splitCharAux c [] xs
      else splitCharAux c (x :: cur) xs

/-- Python `s.split("/")` (also the behaviour of `str.split(sep)` for a
one-character separator). -/
def splitOnSlash (s : String) : List String :=
  splitCharAux (Char.ofNat 47) [] s.data

/-- Dot-segment resolution: `..` pops, `.` is skipped, others append. -/
def resolveSegs (acc : List String) : List String → List String
  | [] => acc
  | s :: rest =>
      if s == ".." then resolveSegs acc.dropLast rest
      else if s == "." then resolveSegs acc rest
      else resolveSegs (acc ++ [s]) rest

/-- `urllib.parse.urljoin(base, url)`. -/
def urljoin (base url : String) : String :=
  if base == "" then url
  else if url == "" then base
  else
    let b := pyUrlparse base "" true
    let u := pyUrlparse url b.scheme true
    if u.scheme != b.scheme || !(uses_relative.contains u.scheme) then url
    else
      let inNetloc := uses_netloc.contains u.scheme
      if inNetloc && u.netloc != "" then
        pyUrlunparse u.scheme u.netloc u.path u.pathParams u.query u.fragment
      else
        let netloc := if inNetloc then b.netloc else u.netloc
        if u.path == "" && u.pathParams == "" then
          let query := if u.query == "" then b.query else u.query
          pyUrlunparse u.scheme netloc b.path b.pathParams query u.fragment
        else
          let base_parts := splitOnSlash b.path
          let base_parts :=
            if base_parts.getLast? != some "" then base_parts.dropLast
            else base_parts
          let segments :=
            if u.path.take 1 == "/" then splitOnSlash u.path
            else filterMiddle (base_parts ++ splitOnSlash u.path)
          let resolved := resolveSegs [] segments
          let resolved :=
            if segments.getLast? == some "." || segments.getLast? == some ".."
            then resolved ++ [""] else resolved
          let joined := String.intercalate "/" resolved
          let path := if joined == "" then "/" else joined
          pyUrlunparse u.scheme netloc path u.pathParams u.query u.fragment

/-! ## Requests (`BaseRequest` and its variants)

The three request classes `NavigatingRequest`, `NonNavigatingRequest` and
`ArchiveRequest` share all `BaseRequest` fields and differ only in a tag and
the archive-only `expected_type`; a `kind` tag models the class. The
`continuation` field is modelled as the method name string (the decorator
rewrites callables to their names before the driver sees them). -/

/-- `deduplication_key : str | None | SkipDeduplicationCheck`. -/
inductive DedupKey where
  | unset
  | skipCheck
  | key (s : String)
deriving DecidableEq

/-- Which request class a request belongs to. -/
inductive RequestKind where
  | navigating
  | nonNavigating
  | archive
deriving DecidableEq

/-- A request, after construction. `previous_requests` nests requests, so this
is an inductive rather than a structure. -/
inductive BaseRequest where
  | mk (kind : RequestKind) (request : HTTPRequestParams) (continuation : String)
       (current_location : String) (previous_requests : List BaseRequest)
       (accumulated_data : PyDict String) (aux_data : PyDict String)
       (priority : Int) (deduplication_key : DedupKey)
       (permanent : PyDict (PyDict String)) (expected_type : Option String)

/-- The request class tag. -/
def BaseRequest.kind : BaseRequest → RequestKind
  | .mk k _ _ _ _ _ _ _ _ _ _ => k

/-- The `request` field (HTTP parameters). -/
def BaseRequest.request : BaseRequest → HTTPRequestParams
  | .mk _ r _ _ _ _ _ _ _ _ _ => r

/-- The `continuation` field. -/
def BaseRequest.continuation : BaseRequest → String
  | .mk _ _ c _ _ _ _ _ _ _ _ => c

/-- The `current_location` field. -/
def BaseRequest.current_location : BaseRequest → String
  | .mk _ _ _ l _ _ _ _ _ _ _ => l

/-- The `previous_requests` field. -/
def BaseRequest.previous_requests : BaseRequest → List BaseRequest
  | .mk _ _ _ _ p _ _ _ _ _ _ => p

/-- The `accumulated_data` field. -/
def BaseRequest.accumulated_data : BaseRequest → PyDict String
  | .mk _ _ _ _ _ a _ _ _ _ _ => a

/-- The `aux_data` field. -/
def BaseRequest.aux_data : BaseRequest → PyDict String
  | .mk _ _ _ _ _ _ a _ _ _ _ => a

/-- The `priority` field. -/
def BaseRequest.priority : BaseRequest → Int
  | .mk _ _ _ _ _ _ _ p _ _ _ => p

/-- The `deduplication_key` field. -/
def BaseRequest.deduplication_key : BaseRequest → DedupKey
  | .mk _ _ _ _ _ _ _ _ d _ _ => d

/-- The `permanent` field. -/
def BaseRequest.permanent : BaseRequest → PyDict (PyDict String)
  | .mk _ _ _ _ _ _ _ _ _ p _ => p

/-- The `expected_type` field (archive requests). -/
def BaseRequest.expected_type : BaseRequest → Option String
  | .mk _ _ _ _ _ _ _ _ _ _ e => e

/-- `BaseRequest._merge_permanent_into_request` (data_types.py line 455):
permanent `headers` update the request headers; permanent `cookies` update
dict cookies, populate absent cookies, and leave an opaque `CookieJar`
unchanged. -/
def _merge_permanent_into_request (req : HTTPRequestParams)
    (permanent : PyDict (PyDict String)) : HTTPRequestParams :=
  let merged_headers : Option (PyDict String) :=
    match dictGet? permanent "headers" with
    | some ph =>
        some (dictUpdate (match req.headers with | some h => h | none => []) ph)
    | none => req.headers
  let merged_cookies : PyCookies :=
    match dictGet? permanent "cookies" with
    | some pc =>
        match req.cookies with
        | .cNone => .cDict pc
        | .cDict d => .cDict (dictUpdate d pc)
        | .cJar h => .cJar h
    | none => req.cookies
  { req with headers := merged_headers, cookies := merged_cookies }

/-- `BaseRequest.__post_init__` (data_types.py line 414) as a constructor
function: the deep copies of `accumulated_data` / `aux_data` / `permanent` are
identities on values (the heap-level view is in `StoreRequest` below); a
truthy `permanent` is merged into the HTTP parameters; an unset
`deduplication_key` defaults to `_generate_deduplication_key` of the merged
parameters. -/
def constructRequest (kind : RequestKind) (request : HTTPRequestParams)
    (continuation : String) (current_location : String)
    (previous_requests : List BaseRequest)
    (accumulated_data aux_data : PyDict String) (priority : Int)
    (deduplication_key : DedupKey) (permanent : PyDict (PyDict String))
    (expected_type : Option String) : BaseRequest :=
  let request :=
    if permanent.isEmpty then request
    else _merge_permanent_into_request request permanent
  let dk :=
    match deduplication_key with
    | .unset => DedupKey.key (_generate_deduplication_key request)
    | k => k
  BaseRequest.mk kind request continuation current_location previous_requests
    accumulated_data aux_data priority dk permanent expected_type

/-- The normalization step of `BaseRequest.resolve_url` (data_types.py line
514): percent-decode then re-encode path (safe `/`) and query (safe `=&`),
then rebuild the URL. -/
def reencodeUrl (url : String) : String :=
  let parsed := pyUrlparse url "" true
  let encoded_path := quote (unquote parsed.path) "/"
  let encoded_query := quote (unquote parsed.query) "=&"
  pyUrlunparse parsed.scheme parsed.netloc encoded_path parsed.pathParams
    encoded_query parsed.fragment

/-- `BaseRequest.resolve_url` (data_types.py line 501) on the raw strings:
normalize percent-encoding, then RFC-3986 join against the current
location. -/
def resolveUrlStr (url current_location : String) : String :=
  urljoin current_location (reencodeUrl url)

/-- Re-assembling the six components produced by `urlparse`. -/
def unparseOfParse (url : String) : String :=
  let p := pyUrlparse url "" true
  pyUrlunparse p.scheme p.netloc p.path p.pathParams p.query p.fragment

/-- `BaseRequest.resolve_url(self, current_location)`. -/
def BaseRequest.resolve_url (self : BaseRequest) (current_location : String) : String :=
  resolveUrlStr self.request.url current_location

/-- `Response`: the record handed to continuations. -/
structure Response where
  status_code : Nat
  headers : PyDict String
  content : List Nat
  text : String
  url : String
  request : BaseRequest

/-- The `context` argument of `resolve_from` / `resolve_request_from`:
a `Response` or the originating request. -/
inductive RContext where
  | response (r : Response)
  | request (r : BaseRequest)

/-- `BaseRequest.resolve_request_from` (data_types.py line 558): location and
parent from the context; a fresh `HTTPRequestParams` carrying only the
resolved url plus the yielded request's method, headers and data (every other
HTTP field takes its dataclass default). -/
def BaseRequest.resolve_request_from (self : BaseRequest) (context : RContext) :
    HTTPRequestParams × String × BaseRequest :=
  let lp :=
    match context with
    | .response resp => (resp.url, resp.request)
    | .request parent => (parent.current_location, parent)
  let resolved_location := lp.1
  let parent_request := lp.2
  ({ url := self.resolve_url resolved_location,
     method := self.request.method,
     headers := self.request.headers,
     data := self.request.data },
   resolved_location, parent_request)

/-- `resolve_from` (data_types.py lines 597, 645, 702 — the three overrides
have identical bodies up to the constructed class): resolve the HTTP
parameters, append the parent to the ancestry, overlay the parent's
`permanent` with the yielded request's (child wins), carry data, priority and
deduplication key forward, and construct (running `__post_init__`). -/
def BaseRequest.resolve_from (self : BaseRequest) (context : RContext) : BaseRequest :=
  let t := self.resolve_request_from context
  let request := t.1
  let location := t.2.1
  let parent := t.2.2
  let merged_permanent := dictUpdate parent.permanent self.permanent
  constructRequest self.kind request self.continuation location
    (parent.previous_requests ++ [parent]) self.accumulated_data self.aux_data
    self.priority self.deduplication_key merged_permanent self.expected_type

/-! ## Driver: what `resolve_request` hands to the HTTP transport

`sync_driver.py` lines 429-442 (and the async twin, lines 477-498) call the
client with exactly `method`, `url`, `headers`, `cookies`, and the body as raw
`content` when it is `bytes` or as form `data` when it is a dict. -/

/-- The keyword arguments passed to `httpx` by the drivers. -/
structure TransportArgs where
  method : String
  url : String
  headers : Option (PyDict String)
  cookies : PyCookies
  content : Option (List Nat)
  formData : Option (PyDict String)
deriving DecidableEq

/-- Build the transport arguments from HTTP parameters, as both drivers do. -/
def mkTransportArgs (http_params : HTTPRequestParams) : TransportArgs :=
  TransportArgs.mk http_params.method.value http_params.url http_params.headers
    http_params.cookies
    (match http_params.data with | .dBytes b => some b | _ => none)
    (match http_params.data with | .dDict d => some d | _ => none)

/-! ## Driver: interceptor chain (`resolve_request`, sync_driver.py line 392)

Interceptors are instrumented with an event trace recording each
`modify_request` call, the HTTP send, and each `modify_response` call, so that
ordering and short-circuit claims are statements about the trace. Events name
interceptors by their position in the interceptor list. -/

/-- One observable step of `resolve_request`. -/
inductive InterceptorEvent where
  | reqCall (i : Nat)
  | httpSend
  | respCall (i : Nat)
deriving DecidableEq

/-- A sync (or async) interceptor: `modify_request` may replace the request or
short-circuit with a `Response`; `modify_response` transforms a response. -/
structure Interceptor where
  modify_request : BaseRequest → BaseRequest ⊕ Response
  modify_response : Response → BaseRequest → Response

/-- The `for interceptor in self.interceptors` loop over `modify_request`:
either all interceptors ran (left) or some interceptor short-circuited and the
rest were never called (right). `idx` is the list position of the first
interceptor. -/
def modifyRequestChain : List Interceptor → Nat → BaseRequest →
    (BaseRequest × List InterceptorEvent) ⊕ (Response × List InterceptorEvent)
  | [], _, r => .inl (r, [])
  | i :: rest, idx, r =>
      match i.modify_request r with
      | .inr resp => .inr (resp, [.reqCall idx])
      | .inl r2 =>
          match modifyRequestChain rest (idx + 1) r2 with
          | .inl (r3, evs) => .inl (r3, .reqCall idx :: evs)
          | .inr (resp, evs) => .inr (resp, .reqCall idx :: evs)

/-- The `for resp_interceptor in reversed(self.interceptors)` loop over
`modify_response`; the original request is passed to every interceptor. -/
def modifyResponseChain : List (Nat × Interceptor) → Response → BaseRequest →
    Response × List InterceptorEvent
  | [], resp, _ => (resp, [])
  | (idx, i) :: rest, resp, orig =>
      let resp2 := i.modify_response resp orig
      let t := modifyResponseChain rest resp2 orig
      (t.1, .respCall idx :: t.2)

/-- What the HTTP transport returns (status, headers, body, text), or a
timeout. -/
inductive TransportResult where
  | ok (status_code : Nat) (headers : PyDict String) (content : List Nat) (text : String)
  | timeout

/-- The outcome of `resolve_request`: a response, or one of the two exceptions
it raises (`RequestTimeoutException` on transport timeout,
`HTMLResponseAssumptionException` on a 5xx status). -/
inductive FetchResult where
  | ok (resp : Response)
  | errTimeout (url : String)
  | errHtmlResponse (status_code : Nat) (url : String)

/-- `SyncDriver.resolve_request` (sync_driver.py line 392; the async version,
async_driver.py line 440, is the same algorithm): walk the `modify_request`
chain, on short-circuit skip HTTP and the remaining request interceptors but
still run the full reversed `modify_response` chain; otherwise send HTTP,
convert timeouts and 5xx statuses to exceptions, and run the reversed
`modify_response` chain. The second component is the event trace. -/
def resolveRequest (transport : HTTPRequestParams → TransportResult)
    (interceptors : List Interceptor) (request : BaseRequest) :
    FetchResult × List InterceptorEvent :=
  match modifyRequestChain interceptors 0 request with
  | .inr (resp, evs) =>
      let t := modifyResponseChain interceptors.enum.reverse resp request
      (.ok t.1, evs ++ t.2)
  | .inl (modified, evs) =>
      let http_params := modified.request
      match transport http_params with
      | .timeout => (.errTimeout http_params.url, evs ++ [.httpSend])
      | .ok status headers content text =>
          if 500 ≤ status then
            (.errHtmlResponse status http_params.url, evs ++ [.httpSend])
          else
            let response :=
              Response.mk status headers content text http_params.url modified
            let t := modifyResponseChain interceptors.enum.reverse response request
            (.ok t.1, evs ++ [.httpSend] ++ t.2)

/-! ## Driver: priority queue (`heapq` view) and enqueue counters

Queue entries are `(priority, counter, request)`; `heapq.heappop` returns the
least entry in the lexicographic tuple order. Counters are assigned from a
monotonically increasing `_queue_counter`, so keys `(priority, counter)` are
distinct and the request itself is never compared. The queue is modelled as
the multiset of entries (a list, push appends); popping extracts the unique
key-minimal entry. -/

/-- Strict lexicographic order on `(priority, counter)` keys. -/
def keyLt (a b : Int × Nat) : Bool :=
  a.1 < b.1 || (a.1 == b.1 && a.2 < b.2)

/-- The key of a queue entry. -/
def entryKey {α : Type} (e : Int × Nat × α) : Int × Nat := (e.1, e.2.1)

/-- `heapq.heappush`. -/
def heappush {α : Type} (q : List (Int × Nat × α)) (e : Int × Nat × α) :
    List (Int × Nat × α) :=
  q ++ [e]

/-- The key-least entry among `e :: xs`. -/
def findMinEntry {α : Type} (e : Int × Nat × α) :
    List (Int × Nat × α) → Int × Nat × α
  | [] => e
  | x :: xs =>
      if keyLt (entryKey x) (entryKey e) then findMinEntry x xs
      else findMinEntry e xs

/-- Remove the first entry carrying the given counter. -/
def removeByCounter {α : Type} (c : Nat) :
    List (Int × Nat × α) → List (Int × Nat × α)
  | [] => []
  | x :: xs => if x.2.1 == c then xs else x :: removeByCounter c xs

/-- `heapq.heappop`: extract the key-least entry. -/
def heappop {α : Type} (q : List (Int × Nat × α)) :
    Option ((Int × Nat × α) × List (Int × Nat × α)) :=
  match q with
  | [] => none
  | x :: xs =>
      let m := findMinEntry x xs
      some (m, removeByCounter m.2.1 (x :: xs))

/-- Pop until empty (with explicit fuel); the worker loop's pop order. -/
def drainFuel {α : Type} : Nat → List (Int × Nat × α) → List (Int × Nat × α)
  | 0, _ => []
  | fuel + 1, q =>
      match heappop q with
      | none => []
      | some (m, rest) => m :: drainFuel fuel rest

/-- The sequence of entries the worker loop pops from a queue. -/
def drain {α : Type} (q : List (Int × Nat × α)) : List (Int × Nat × α) :=
  drainFuel q.length q

/-- `enqueue_request` pushes (sync_driver.py line 386) and the entry counter
increments under the same lock (async_driver.py line 430): pushing a batch of
`(priority, payload)` pairs assigns consecutive counters. -/
def pushAll {α : Type} (q : List (Int × Nat × α)) (counter : Nat) :
    List (Int × α) → List (Int × Nat × α) × Nat
  | [] => (q, counter)
  | p :: rest => pushAll (heappush q (p.1, counter, p.2)) (counter + 1) rest

/-! ## Driver: exception routing in the worker loop

The exception classes of `juriscraper.scraper_driver.common.exceptions` are
not part of the sources under verification; the taxonomy below is modelled
from the spec. Modelled from the spec (section 7, `common/exceptions.py` is
missing from src): `ScraperAssumption` is the base kind with subkinds
`HTMLStructuralAssumption`, `HTMLResponseAssumption` and
`DataFormatAssumption`; `TransientException` is a separate base with
`RequestTimeout` and network-level errors. -/

/-- A raised scraper-assumption error (one constructor per subkind). -/
inductive ScraperExc where
  | htmlStructural (msg : String)
  | htmlResponse (status_code : Nat) (url : String)
  | dataFormat (model_name : String)
deriving DecidableEq

/-- The exception classes an `except` clause can name. -/
inductive ExcClass where
  | ScraperAssumptionException
  | HTMLStructuralAssumptionException
  | HTMLResponseAssumptionException
  | DataFormatAssumptionException
deriving DecidableEq

/-- Python `isinstance` for the modelled hierarchy: every subkind is an
instance of the base class, and of its own leaf class. -/
def instanceOfExc : ScraperExc → ExcClass → Bool
  | _, .ScraperAssumptionException => true
  | .htmlStructural _, .HTMLStructuralAssumptionException => true
  | .htmlResponse _ _, .HTMLResponseAssumptionException => true
  | .dataFormat _, .DataFormatAssumptionException => true
  | _, _ => false

/-- A raised transient error. -/
inductive TransientExc where
  | requestTimeout (url : String)
  | networkError (msg : String)
deriving DecidableEq

/-- What a worker does after its `except` handling of one raised exception. -/
inductive WorkerOutcome (ε : Type) where
  | continueWorker
  | stopWorker
  | propagate (e : ε)
deriving DecidableEq

/-- The `except TransientException` block of `SyncDriver.run` (sync_driver.py
lines 283-294): with a callback, `True` continues with the next queued request
and `False` returns from `run`; with no callback the exception is re-raised. -/
def syncHandleTransient (on_transient_exception : Option (TransientExc → Bool))
    (e : TransientExc) : WorkerOutcome TransientExc :=
  match on_transient_exception with
  | some cb => if cb e then .continueWorker else .stopWorker
  | none => .propagate e

/-- The `except TransientException` block of `AsyncDriver._worker`
(async_driver.py lines 337-348): with a callback, `True` continues and `False`
breaks out of the worker loop; with no callback the exception is re-raised. -/
def asyncHandleTransient (on_transient_exception : Option (TransientExc → Bool))
    (e : TransientExc) : WorkerOutcome TransientExc :=
  match on_transient_exception with
  | some cb => if cb e then .continueWorker else .stopWorker
  | none => .propagate e

/-- The `except` block wrapping continuation iteration, parameterized by the
class named in the `except` clause: an exception not matching the clause
propagates; a matching one goes to `on_structural_error` when set (`True`
keeps the worker alive, `False` stops it) and propagates when no callback is
set. -/
def handleContinuationExc (catchClass : ExcClass)
    (on_structural_error : Option (ScraperExc → Bool)) (e : ScraperExc) :
    WorkerOutcome ScraperExc :=
  if instanceOfExc e catchClass then
    match on_structural_error with
    | some cb => if cb e then .continueWorker else .stopWorker
    | none => .propagate e
  else .propagate e

/-- `SyncDriver.run` catches `ScraperAssumptionException` around the iteration
(sync_driver.py line 327). -/
def syncHandleStructural (on_structural_error : Option (ScraperExc → Bool))
    (e : ScraperExc) : WorkerOutcome ScraperExc :=
  handleContinuationExc .ScraperAssumptionException on_structural_error e

/-- `AsyncDriver._worker` catches `HTMLStructuralAssumptionException` around
the iteration (async_driver.py line 383). -/
def asyncHandleStructural (on_structural_error : Option (ScraperExc → Bool))
    (e : ScraperExc) : WorkerOutcome ScraperExc :=
  handleContinuationExc .HTMLStructuralAssumptionException on_structural_error e

/-- Whether an event is a `modify_response` call. -/
def InterceptorEvent.isRespCall : InterceptorEvent → Bool
  | .respCall _ => true
  | _ => false

/-- Position of the entry with counter `c` in a pop sequence. -/
def counterPos {α : Type} (l : List (Int × Nat × α)) (c : Nat) : Nat :=
  l.findIdx (fun e => e.2.1 == c)

/-- What one pass of the worker's fetch phase decides. -/
inductive FetchStep where
  | proceed (resp : Response)
  | nextRequest
  | stopRun
  | raised (e : TransientExc)
  | raisedOther (e : ScraperExc)

/-- The fetch phase of `SyncDriver.run` (sync_driver.py lines 276-294):
`resolve_request` inside `try ... except TransientException`; a timeout is a
`TransientException` and goes to the handler, a 5xx
`HTMLResponseAssumptionException` is not and propagates uncaught. -/
def syncFetchAndHandle (transport : HTTPRequestParams → TransportResult)
    (interceptors : List Interceptor)
    (on_transient_exception : Option (TransientExc → Bool))
    (request : BaseRequest) : FetchStep :=
  match (resolveRequest transport interceptors request).1 with
  | .ok resp => .proceed resp
  | .errTimeout url =>
      match syncHandleTransient on_transient_exception (.requestTimeout url) with
      | .continueWorker => .nextRequest
      | .stopWorker => .stopRun
      | .propagate e => .raised e
  | .errHtmlResponse status url => .raisedOther (.htmlResponse status url)

/-- The fetch phase of `AsyncDriver._worker` (async_driver.py lines 329-348),
same routing as the sync variant (`break` / `continue` instead of `return` /
`continue`). -/
def asyncFetchAndHandle (transport : HTTPRequestParams → TransportResult)
    (interceptors : List Interceptor)
    (on_transient_exception : Option (TransientExc → Bool))
    (request : BaseRequest) : FetchStep :=
  match (resolveRequest transport interceptors request).1 with
  | .ok resp => .proceed resp
  | .errTimeout url =>
      match asyncHandleTransient on_transient_exception (.requestTimeout url) with
      | .continueWorker => .nextRequest
      | .stopWorker => .stopRun
      | .propagate e => .raised e
  | .errHtmlResponse status url => .raisedOther (.htmlResponse status url)

/-- Lookup inside a cookies value: only a dict holds readable entries. -/
def cookiesGet? (c : PyCookies) (k : String) : Option String :=
  match c with
  | .cDict d => dictGet? d k
  | _ => none

/-! ## Heap-level view of the `__post_init__` deep copies

`BaseRequest.__post_init__` (data_types.py lines 436-440) replaces
`accumulated_data`, `aux_data` and `permanent` by deep copies. The embedding
above is value-level, where copying is invisible; this store model makes the
aliasing observable: mappings live in numbered cells, requests hold cell
addresses, construction copies each input mapping into a freshly allocated
cell, and mutation overwrites one cell. -/

/-- A heap of mapping cells; the address of a cell is its index. -/
structure Store where
  cells : List (PyDict String)

/-- Allocate a fresh cell holding `d`; returns the new store and address. -/
def Store.alloc (s : Store) (d : PyDict String) : Store × Nat :=
  (Store.mk (s.cells ++ [d]), s.cells.length)

/-- Read a cell. -/
def Store.read (s : Store) (a : Nat) : PyDict String :=
  s.cells.getD a []

/-- Mutate a cell in place. -/
def Store.write (s : Store) (a : Nat) (d : PyDict String) : Store :=
  Store.mk (s.cells.set a d)

/-- The three per-request mapping cells of a constructed request. -/
structure StoreRequest where
  accRef : Nat
  auxRef : Nat
  permRef : Nat
deriving DecidableEq

/-- The deep copies of `__post_init__` in the store model: the request's
`accumulated_data`, `aux_data` and `permanent` cells are fresh copies of the
cells passed to the constructor. -/
def constructRequestStore (s : Store) (accIn auxIn permIn : Nat) :
    Store × StoreRequest :=
  let t1 := s.alloc (s.read accIn)
  let t2 := t1.1.alloc (t1.1.read auxIn)
  let t3 := t2.1.alloc (t2.1.read permIn)
  (t3.1, StoreRequest.mk t1.2 t2.2 t3.2)

/-! ## Shared lemmas -/

/-- The default key depends only on url, query parameters, body and json. -/
theorem dedupKey_congr (p q : HTTPRequestParams) (hurl : p.url = q.url)
    (hparams : p.params = q.params) (hdata : p.data = q.data)
    (hjson : p.json = q.json) :
    _generate_deduplication_key p = _generate_deduplication_key q := by
  unfold _generate_deduplication_key dedupCombined
  rw [hurl, hparams, hdata, hjson]

/-- Merging permanent headers/cookies touches neither url, query, body nor
json. -/
theorem merge_permanent_preserves_key_components (p : HTTPRequestParams)
    (perm : PyDict (PyDict String)) :
    (_merge_permanent_into_request p perm).url = p.url ∧
    (_merge_permanent_into_request p perm).params = p.params ∧
    (_merge_permanent_into_request p perm).data = p.data ∧
    (_merge_permanent_into_request p perm).json = p.json :=
  ⟨rfl, rfl, rfl, rfl⟩

/-- After construction the deduplication key is never `unset`, and
`resolve_from` passes it through `__post_init__` unchanged. -/
theorem resolve_from_carries_key (self : BaseRequest) (ctx : RContext)
    (h : self.deduplication_key ≠ .unset) :
    (self.resolve_from ctx).deduplication_key = self.deduplication_key := by
  unfold BaseRequest.resolve_from constructRequest
  cases hdk : self.deduplication_key with
  | unset => exact absurd hdk h
  | skipCheck => simp [BaseRequest.deduplication_key, hdk]
  | key s => simp [BaseRequest.deduplication_key, hdk]

/-- The key a fresh construction with an unset key receives. -/
theorem constructRequest_key_of_unset (kind : RequestKind)
    (p : HTTPRequestParams) (cont loc : String) (prev : List BaseRequest)
    (acc aux : PyDict String) (pri : Int) (perm : PyDict (PyDict String))
    (et : Option String) :
    (constructRequest kind p cont loc prev acc aux pri .unset perm et).deduplication_key =
      .key (_generate_deduplication_key
        (if perm.isEmpty then p else _merge_permanent_into_request p perm)) := by
  unfold constructRequest
  simp [BaseRequest.deduplication_key]

/-- Writing one store cell leaves every other cell unchanged. -/
theorem store_read_write_ne (s : Store) (a b : Nat) (d : PyDict String)
    (h : a ≠ b) : Store.read (Store.write s a d) b = Store.read s b := by
  simp [Store.read, Store.write, List.getD_eq_getElem?_getD,
    List.getElem?_set_ne h]

/-- A key outside a dictionary's key list looks up to nothing. -/
theorem dictGet?_eq_none_of_not_mem {α : Type} (e : PyDict α) (k : String)
    (h : k ∉ e.map Prod.fst) : dictGet? e k = none := by
  induction e with
  | nil => rfl
  | cons p rest ih =>
      simp only [List.map_cons, List.mem_cons, not_or] at h
      have hpk : ¬(p.1 = k) := fun hh => h.1 hh.symm
      simp [dictGet?, beq_iff_eq, hpk, ih h.2]

/-- Lookup after a single assignment. -/
theorem dictGet?_dictSet {α : Type} (d : PyDict α) (k k' : String) (v : α) :
    dictGet? (dictSet d k v) k' = if k' = k then some v else dictGet? d k' := by
  induction d with
  | nil =>
      by_cases h : k = k'
      · subst h
        simp [dictSet, dictGet?]
      · have h2 : ¬(k' = k) := fun hh => h hh.symm
        simp [dictSet, dictGet?, beq_iff_eq, h, h2]
  | cons p rest ih =>
      by_cases hp : p.1 = k
      · by_cases h : k = k'
        · simp [dictSet, dictGet?, beq_iff_eq, hp, h]
        · have h2 : ¬(k' = k) := fun hh => h hh.symm
          have h3 : ¬(p.1 = k') := by rw [hp]; exact h
          simp [dictSet, dictGet?, beq_iff_eq, hp, h, h2, h3]
      · by_cases hpk : p.1 = k'
        · have hkk : ¬(k' = k) := fun hh => hp (hpk.trans hh)
          simp [dictSet, dictGet?, beq_iff_eq, hp, hpk, hkk]
        · simp [dictSet, dictGet?, beq_iff_eq, hp, hpk, ih]

/-- Lookup after `d.update(e)` / `{**d, **e}` for a duplicate-free `e`: the
later dictionary wins on every key it holds. -/
theorem dictGet?_dictUpdate {α : Type} (d e : PyDict α)
    (hnd : (e.map Prod.fst).Nodup) (k : String) :
    dictGet? (dictUpdate d e) k = (dictGet? e k).or (dictGet? d k) := by
  induction e generalizing d with
  | nil => simp [dictUpdate, dictGet?]
  | cons p rest ih =>
      rw [List.map_cons] at hnd
      have hmem := (List.nodup_cons.mp hnd).1
      have hndr := (List.nodup_cons.mp hnd).2
      have hupd : dictUpdate d (p :: rest) = dictUpdate (dictSet d p.1 p.2) rest := by
        simp [dictUpdate]
      rw [hupd, ih (dictSet d p.1 p.2) hndr]
      by_cases hk : k = p.1
      · subst hk
        have hrest : dictGet? rest p.1 = none :=
          dictGet?_eq_none_of_not_mem rest p.1 hmem
        simp [hrest, dictGet?, beq_iff_eq, dictGet?_dictSet]
      · have hne : ¬(p.1 = k) := fun h => hk h.symm
        simp [dictGet?, beq_iff_eq, hne, dictGet?_dictSet, hk]

/-! ## Claims -/

/-- Claim C1, counterexample: the two parameter records below differ in
method and in nothing else, yet `_generate_deduplication_key` gives them the
same key — the method is not hashed, refuting "any difference in method …
produces a different key". -/
theorem dedupKey_method_counterexample :
    ({ method := .GET, url := "https://example.com/cases" } : HTTPRequestParams).method ≠
      ({ method := .POST, url := "https://example.com/cases" } : HTTPRequestParams).method ∧
    _generate_deduplication_key { method := .GET, url := "https://example.com/cases" } =
      _generate_deduplication_key { method := .POST, url := "https://example.com/cases" } :=
  ⟨by decide, rfl⟩

/-- Claim C1 (amended): for requests with `deduplication_key` unset the engine
assigns the SHA-256 hex digest of `url(+sorted query)|sorted body/json`; the
key is a pure function of `(url+params, body)` — any two parameter records
identical in url, query parameters, body and json receive identical keys (in
particular the HTTP method plays no role). -/
theorem dedupKey_pure_in_url_params_body (p q : HTTPRequestParams)
    (hurl : p.url = q.url) (hparams : p.params = q.params)
    (hdata : p.data = q.data) (hjson : p.json = q.json) :
    _generate_deduplication_key p = _generate_deduplication_key q :=
  dedupKey_congr p q hurl hparams hdata hjson

/-- Witness for C1's amended theorem at concrete inputs (requests differing in
method and headers only). -/
theorem dedupKey_pure_in_url_params_body_witness :
    _generate_deduplication_key
        { method := .GET, url := "https://h/x",
          headers := some [("Accept", "text/html")] } =
      _generate_deduplication_key { method := .HEAD, url := "https://h/x" } :=
  dedupKey_pure_in_url_params_body
    { method := .GET, url := "https://h/x",
      headers := some [("Accept", "text/html")] }
    { method := .HEAD, url := "https://h/x" } rfl rfl rfl rfl

/-- Claim C10: a request's deduplication key is fixed at construction from the
pre-resolution HTTP parameters and carried verbatim through `resolve_from`
(never recomputed); two requests built from the same relative url, method,
query and body — however else they differ, and against whichever contexts they
are resolved — end up with the same key. -/
theorem dedupKey_fixed_at_construction_and_carried
    (k1 k2 : RequestKind) (p1 p2 : HTTPRequestParams) (c1 c2 l1 l2 : String)
    (pr1 pr2 : List BaseRequest) (a1 a2 x1 x2 : PyDict String) (pi1 pi2 : Int)
    (pm1 pm2 : PyDict (PyDict String)) (e1 e2 : Option String)
    (ctx1 ctx2 : RContext)
    (hurl : p1.url = p2.url) (_hmethod : p1.method = p2.method)
    (hparams : p1.params = p2.params) (hdata : p1.data = p2.data)
    (hjson : p1.json = p2.json) :
    ((constructRequest k1 p1 c1 l1 pr1 a1 x1 pi1 .unset pm1 e1).resolve_from ctx1).deduplication_key =
        (constructRequest k1 p1 c1 l1 pr1 a1 x1 pi1 .unset pm1 e1).deduplication_key ∧
    ((constructRequest k1 p1 c1 l1 pr1 a1 x1 pi1 .unset pm1 e1).resolve_from ctx1).deduplication_key =
      ((constructRequest k2 p2 c2 l2 pr2 a2 x2 pi2 .unset pm2 e2).resolve_from ctx2).deduplication_key := by
  have hk1 := constructRequest_key_of_unset k1 p1 c1 l1 pr1 a1 x1 pi1 pm1 e1
  have hk2 := constructRequest_key_of_unset k2 p2 c2 l2 pr2 a2 x2 pi2 pm2 e2
  have hc1 : (constructRequest k1 p1 c1 l1 pr1 a1 x1 pi1 .unset pm1 e1).deduplication_key ≠ .unset := by
    rw [hk1]; intro h; cases h
  have hc2 : (constructRequest k2 p2 c2 l2 pr2 a2 x2 pi2 .unset pm2 e2).deduplication_key ≠ .unset := by
    rw [hk2]; intro h; cases h
  refine ⟨resolve_from_carries_key _ ctx1 hc1, ?_⟩
  rw [resolve_from_carries_key _ ctx1 hc1, resolve_from_carries_key _ ctx2 hc2,
    hk1, hk2]
  have key1 :
      _generate_deduplication_key
          (if pm1.isEmpty then p1 else _merge_permanent_into_request p1 pm1) =
        _generate_deduplication_key
          (if pm2.isEmpty then p2 else _merge_permanent_into_request p2 pm2) := by
    apply dedupKey_congr
    · cases pm1.isEmpty <;> cases pm2.isEmpty <;>
        simp [(merge_permanent_preserves_key_components p1 pm1).1,
          (merge_permanent_preserves_key_components p2 pm2).1, hurl]
    · cases pm1.isEmpty <;> cases pm2.isEmpty <;>
        simp [(merge_permanent_preserves_key_components p1 pm1).2.1,
          (merge_permanent_preserves_key_components p2 pm2).2.1, hparams]
    · cases pm1.isEmpty <;> cases pm2.isEmpty <;>
        simp [(merge_permanent_preserves_key_components p1 pm1).2.2.1,
          (merge_permanent_preserves_key_components p2 pm2).2.2.1, hdata]
    · cases pm1.isEmpty <;> cases pm2.isEmpty <;>
        simp [(merge_permanent_preserves_key_components p1 pm1).2.2.2,
          (merge_permanent_preserves_key_components p2 pm2).2.2.2, hjson]
  rw [key1]

/-- Witness for C10 at concrete inputs: the same relative request resolved
against two different response locations keeps one and the same key while the
resolved absolute urls differ. -/
theorem dedupKey_fixed_at_construction_and_carried_witness :
    let dummy := BaseRequest.mk .navigating
      { method := .GET, url := "https://a.example/" } "entry" "" [] [] [] 9
      .skipCheck [] none
    let ctxA := RContext.response (Response.mk 200 [] [] "" "https://a.example/x/y" dummy)
    let ctxB := RContext.response (Response.mk 200 [] [] "" "https://b.example/z" dummy)
    let r1 := constructRequest .navigating { method := .GET, url := "/detail?id=7" }
      "parse_detail" "" [] [] [] 9 .unset [] none
    let r2 := constructRequest .navigating { method := .GET, url := "/detail?id=7" }
      "other_step" "" [] [] [] 9 .unset [] none
    (r1.resolve_from ctxA).deduplication_key = (r2.resolve_from ctxB).deduplication_key ∧
    (r1.resolve_from ctxA).request.url ≠ (r2.resolve_from ctxB).request.url := by
  intro dummy ctxA ctxB r1 r2
  refine ⟨(dedupKey_fixed_at_construction_and_carried .navigating .navigating
    { method := .GET, url := "/detail?id=7" } { method := .GET, url := "/detail?id=7" }
    "parse_detail" "other_step" "" "" [] [] [] [] [] [] 9 9 [] [] none none
    ctxA ctxB rfl rfl rfl rfl rfl).2, ?_⟩
  decide

/-- Claim C5: `resolve_request_from` builds HTTP parameters carrying only the
newly resolved url and the yielded request's method, headers and data; every
other HTTP field (query params, json, cookies, files, auth, timeout,
allow_redirects, proxies, verify, stream, cert) is reset to its dataclass
default — and the drivers' transport call reads none of those fields, so they
are never forwarded to HTTP. -/
theorem resolve_request_from_forwards_only_method_headers_data
    (self : BaseRequest) (context : RContext) (p : HTTPRequestParams)
    (pp : PyParams) (js : Option PyJson) (fl : Option (PyDict String))
    (au : Option (String × String)) (tm : Option PyTimeout) (ar : Bool)
    (px : Option (PyDict String)) (vf : PyVerify) (st : Bool)
    (ce : Option PyCert) :
    ((self.resolve_request_from context).1.method = self.request.method ∧
     (self.resolve_request_from context).1.headers = self.request.headers ∧
     (self.resolve_request_from context).1.data = self.request.data ∧
     (self.resolve_request_from context).1.url =
       self.resolve_url (match context with
         | .response r => r.url
         | .request r => r.current_location)) ∧
    ((self.resolve_request_from context).1.params = .pNone ∧
     (self.resolve_request_from context).1.json = none ∧
     (self.resolve_request_from context).1.cookies = .cNone ∧
     (self.resolve_request_from context).1.files = none ∧
     (self.resolve_request_from context).1.auth = none ∧
     (self.resolve_request_from context).1.timeout = none ∧
     (self.resolve_request_from context).1.allow_redirects = true ∧
     (self.resolve_request_from context).1.proxies = none ∧
     (self.resolve_request_from context).1.verify = .vBool true ∧
     (self.resolve_request_from context).1.stream = false ∧
     (self.resolve_request_from context).1.cert = none) ∧
    mkTransportArgs { p with
      params := pp, json := js, files := fl, auth := au
      timeout := tm, allow_redirects := ar, proxies := px, verify := vf
      stream := st, cert := ce } = mkTransportArgs p := by
  refine ⟨?_, ?_, rfl⟩ <;> cases context <;>
    simp [BaseRequest.resolve_request_from]

/-- Claim C4: construction deep-copies `accumulated_data`, `aux_data` and
`permanent` into fresh cells, so for two sibling requests built one after the
other — possibly from the same source mappings — overwriting any of the three
mappings of one request leaves the corresponding mapping of the other exactly
as it was. -/
theorem sibling_requests_observationally_independent
    (s : Store) (accIn auxIn permIn accIn2 auxIn2 permIn2 : Nat)
    (d : PyDict String) :
    Store.read
        (Store.write (constructRequestStore (constructRequestStore s accIn auxIn permIn).1 accIn2 auxIn2 permIn2).1
          (constructRequestStore s accIn auxIn permIn).2.accRef d)
        (constructRequestStore (constructRequestStore s accIn auxIn permIn).1 accIn2 auxIn2 permIn2).2.accRef =
      Store.read (constructRequestStore (constructRequestStore s accIn auxIn permIn).1 accIn2 auxIn2 permIn2).1
        (constructRequestStore (constructRequestStore s accIn auxIn permIn).1 accIn2 auxIn2 permIn2).2.accRef ∧
    Store.read
        (Store.write (constructRequestStore (constructRequestStore s accIn auxIn permIn).1 accIn2 auxIn2 permIn2).1
          (constructRequestStore s accIn auxIn permIn).2.auxRef d)
        (constructRequestStore (constructRequestStore s accIn auxIn permIn).1 accIn2 auxIn2 permIn2).2.auxRef =
      Store.read (constructRequestStore (constructRequestStore s accIn auxIn permIn).1 accIn2 auxIn2 permIn2).1
        (constructRequestStore (constructRequestStore s accIn auxIn permIn).1 accIn2 auxIn2 permIn2).2.auxRef ∧
    Store.read
        (Store.write (constructRequestStore (constructRequestStore s accIn auxIn permIn).1 accIn2 auxIn2 permIn2).1
          (constructRequestStore s accIn auxIn permIn).2.permRef d)
        (constructRequestStore (constructRequestStore s accIn auxIn permIn).1 accIn2 auxIn2 permIn2).2.permRef =
      Store.read (constructRequestStore (constructRequestStore s accIn auxIn permIn).1 accIn2 auxIn2 permIn2).1
        (constructRequestStore (constructRequestStore s accIn auxIn permIn).1 accIn2 auxIn2 permIn2).2.permRef ∧
    Store.read
        (Store.write (constructRequestStore (constructRequestStore s accIn auxIn permIn).1 accIn2 auxIn2 permIn2).1
          (constructRequestStore (constructRequestStore s accIn auxIn permIn).1 accIn2 auxIn2 permIn2).2.accRef d)
        (constructRequestStore s accIn auxIn permIn).2.accRef =
      Store.read (constructRequestStore (constructRequestStore s accIn auxIn permIn).1 accIn2 auxIn2 permIn2).1
        (constructRequestStore s accIn auxIn permIn).2.accRef := by
  refine ⟨?_, ?_, ?_, ?_⟩ <;>
    · apply store_read_write_ne
      simp only [constructRequestStore, Store.alloc, Store.read,
        List.length_append, List.length_cons, List.length_nil]
      omega

/-- Claim C9: when fetching a request raises a `TransientException` in the
worker loop (here: a transport timeout surfacing as `RequestTimeout`), both
drivers invoke `on_transient_exception` when it is set — a true return moves
the worker to the next queued request, a false return stops that worker — and
propagate the exception when no callback is set. -/
theorem transient_exception_worker_routing
    (transport : HTTPRequestParams → TransportResult)
    (interceptors : List Interceptor) (request : BaseRequest) (url : String)
    (cb : TransientExc → Bool)
    (h : (resolveRequest transport interceptors request).1 = .errTimeout url) :
    (syncFetchAndHandle transport interceptors (some cb) request =
      (if cb (.requestTimeout url) then .nextRequest else .stopRun)) ∧
    (syncFetchAndHandle transport interceptors none request =
      .raised (.requestTimeout url)) ∧
    (asyncFetchAndHandle transport interceptors (some cb) request =
      (if cb (.requestTimeout url) then .nextRequest else .stopRun)) ∧
    (asyncFetchAndHandle transport interceptors none request =
      .raised (.requestTimeout url)) := by
  unfold syncFetchAndHandle asyncFetchAndHandle
  rw [h]
  simp only [syncHandleTransient, asyncHandleTransient]
  cases hcb : cb (.requestTimeout url) <;> simp [hcb]

/-- Witness for C9: a transport that always times out, no interceptors, an
always-true callback on the sync side and no callback on the async side. -/
theorem transient_exception_worker_routing_witness :
    syncFetchAndHandle (fun _ => TransportResult.timeout) []
        (some (fun _ => true))
        (BaseRequest.mk .navigating { method := .GET, url := "https://t.example/x" }
          "c" "" [] [] [] 9 .skipCheck [] none) = .nextRequest ∧
    asyncFetchAndHandle (fun _ => TransportResult.timeout) [] none
        (BaseRequest.mk .navigating { method := .GET, url := "https://t.example/x" }
          "c" "" [] [] [] 9 .skipCheck [] none) =
      .raised (.requestTimeout "https://t.example/x") := by
  have h := transient_exception_worker_routing (fun _ => TransportResult.timeout)
    []
    (BaseRequest.mk .navigating { method := .GET, url := "https://t.example/x" }
      "c" "" [] [] [] 9 .skipCheck [] none)
    "https://t.example/x" (fun _ => true) rfl
  exact ⟨h.1, h.2.2.2⟩

/-- Claim C8, counterexample: a `DataFormatAssumption` is a
`ScraperAssumption` subkind, yet the async worker — whose except clause names
only `HTMLStructuralAssumptionException` — propagates it without consulting
the configured always-true `on_structural_error`, while the sync worker (which
catches the base class) routes it and keeps going; the claim's "both driver
variants … any ScraperAssumption error" is false for the async driver. -/
theorem async_structural_routing_counterexample :
    instanceOfExc (.dataFormat "CaseData") .ScraperAssumptionException = true ∧
    asyncHandleStructural (some (fun _ => true)) (.dataFormat "CaseData") =
      .propagate (.dataFormat "CaseData") ∧
    syncHandleStructural (some (fun _ => true)) (.dataFormat "CaseData") =
      .continueWorker := by
  refine ⟨rfl, rfl, rfl⟩

/-- Claim C8 (amended): the sync worker catches every `ScraperAssumption`
subkind raised during continuation iteration and routes it to
`on_structural_error` when set (true keeps the worker alive, false stops it;
no callback propagates); the async worker does the same for
`HTMLStructuralAssumption` errors only — the other `ScraperAssumption`
subkinds (`HTMLResponseAssumption`, `DataFormatAssumption`) propagate out of
the async worker whether or not the callback is set. -/
theorem structural_error_worker_routing
    (cb : ScraperExc → Bool) (ocb : Option (ScraperExc → Bool))
    (e : ScraperExc) (msg url model_name : String) (status : Nat) :
    (syncHandleStructural (some cb) e =
      (if cb e then .continueWorker else .stopWorker)) ∧
    (syncHandleStructural none e = .propagate e) ∧
    (asyncHandleStructural (some cb) (.htmlStructural msg) =
      (if cb (.htmlStructural msg) then .continueWorker else .stopWorker)) ∧
    (asyncHandleStructural none (.htmlStructural msg) =
      .propagate (.htmlStructural msg)) ∧
    (asyncHandleStructural ocb (.htmlResponse status url) =
      .propagate (.htmlResponse status url)) ∧
    (asyncHandleStructural ocb (.dataFormat model_name) =
      .propagate (.dataFormat model_name)) := by
  refine ⟨?_, ?_, rfl, rfl, ?_, ?_⟩
  · cases e <;> simp [syncHandleStructural, handleContinuationExc, instanceOfExc]
  · cases e <;> simp [syncHandleStructural, handleContinuationExc, instanceOfExc]
  · cases ocb <;> simp [asyncHandleStructural, handleContinuationExc, instanceOfExc]
  · cases ocb <;> simp [asyncHandleStructural, handleContinuationExc, instanceOfExc]

/-- Claim C7, counterexample: a request whose `http_params.cookies` is an
opaque `CookieJar` keeps the jar untouched at construction — the permanent
`cookies` entry `sid = 42` is dropped rather than merged, refuting "the values
stored in permanent under the recognized keys headers and cookies are merged
into http_params.headers / http_params.cookies at construction time" for
every request. -/
theorem permanent_cookiejar_counterexample :
    dictGet? [("sid", "42")] "sid" = some "42" ∧
    cookiesGet?
      (constructRequest .navigating
        { method := .GET, url := "https://h/x", cookies := .cJar 0 }
        "c" "" [] [] [] 9 .skipCheck [("cookies", [("sid", "42")])] none).request.cookies
      "sid" = none ∧
    (constructRequest .navigating
      { method := .GET, url := "https://h/x", cookies := .cJar 0 }
      "c" "" [] [] [] 9 .skipCheck [("cookies", [("sid", "42")])] none).request.cookies =
      .cJar 0 :=
  ⟨rfl, rfl, rfl⟩

/-- Claim C7 (amended): at construction the permanent `headers` mapping is
merged into `http_params.headers` (permanent entries win), and the permanent
`cookies` mapping is merged into `http_params.cookies` when the existing
cookies are absent or a plain mapping — an opaque `CookieJar` is left
unchanged and the permanent cookies are not applied to it; on resolution the
resolved request's `permanent` is the parent's overlaid with the child's, the
child winning on every key conflict, so permanent entries propagate to every
descendant request. -/
theorem permanent_merge_and_propagation
    (kind : RequestKind) (p : HTTPRequestParams) (cont loc : String)
    (prev : List BaseRequest) (acc aux : PyDict String) (pri : Int)
    (dk : DedupKey) (perm : PyDict (PyDict String)) (et : Option String)
    (ph pc : PyDict String) (child : BaseRequest) (ctx : RContext)
    (k k2 : String)
    (hne : perm.isEmpty = false)
    (hh : dictGet? perm "headers" = some ph)
    (hndph : (ph.map Prod.fst).Nodup)
    (hc : dictGet? perm "cookies" = some pc)
    (hndchild : ((child.permanent).map Prod.fst).Nodup) :
    dictGet?
        ((constructRequest kind p cont loc prev acc aux pri dk perm et).request.headers.getD [])
        k = (dictGet? ph k).or (dictGet? (p.headers.getD []) k) ∧
    (constructRequest kind p cont loc prev acc aux pri dk perm et).request.cookies =
      (match p.cookies with
       | .cNone => .cDict pc
       | .cDict d0 => .cDict (dictUpdate d0 pc)
       | .cJar h => .cJar h) ∧
    dictGet? ((child.resolve_from ctx).permanent) k2 =
      (dictGet? child.permanent k2).or
        (dictGet? (match ctx with
          | .response r => r.request.permanent
          | .request r => r.permanent) k2) := by
  have hreq : (constructRequest kind p cont loc prev acc aux pri dk perm et).request =
      _merge_permanent_into_request p perm := by
    simp [constructRequest, BaseRequest.request, hne]
  refine ⟨?_, ?_, ?_⟩
  · rw [hreq]
    unfold _merge_permanent_into_request
    cases hph : p.headers <;>
      simp [hh, hph, dictGet?_dictUpdate _ _ hndph]
  · rw [hreq]
    unfold _merge_permanent_into_request
    cases p.cookies <;> simp [hc]
  · have hperm : (child.resolve_from ctx).permanent =
        dictUpdate (match ctx with
          | .response r => r.request.permanent
          | .request r => r.permanent) child.permanent := by
      cases ctx <;> rfl
    rw [hperm, dictGet?_dictUpdate _ _ hndchild]

/-- Witness for C7 at concrete inputs: the permanent header `X-Token` shows up
in the constructed request's headers, and a permanent cookie set by a parent
but absent from the child survives resolution. -/
theorem permanent_merge_and_propagation_witness :
    dictGet?
        ((constructRequest .navigating
          { method := .GET, url := "https://h/x",
            headers := some [("Accept", "text/html")] }
          "c" "" [] [] [] 9 .skipCheck
          [("headers", [("X-Token", "t")]), ("cookies", [("sid", "42")])]
          none).request.headers.getD [])
        "X-Token" = some "t" ∧
    dictGet?
        (((BaseRequest.mk .navigating { method := .GET, url := "/next" } "c" ""
            [] [] [] 9 .skipCheck [("cookies", [("sid", "9")])] none).resolve_from
          (.request (BaseRequest.mk .navigating
            { method := .GET, url := "https://h/a" } "c" "https://h/a" [] [] []
            9 .skipCheck [("headers", [("X-Token", "t")])] none))).permanent)
        "headers" = some [("X-Token", "t")] := by
  have h := permanent_merge_and_propagation .navigating
    { method := .GET, url := "https://h/x",
      headers := some [("Accept", "text/html")] }
    "c" "" [] [] [] 9 .skipCheck
    [("headers", [("X-Token", "t")]), ("cookies", [("sid", "42")])] none
    [("X-Token", "t")] [("sid", "42")]
    (BaseRequest.mk .navigating { method := .GET, url := "/next" } "c" ""
      [] [] [] 9 .skipCheck [("cookies", [("sid", "9")])] none)
    (.request (BaseRequest.mk .navigating
      { method := .GET, url := "https://h/a" } "c" "https://h/a" [] [] []
      9 .skipCheck [("headers", [("X-Token", "t")])] none))
    "X-Token" "headers" rfl rfl (by decide) rfl (by decide)
  exact ⟨h.1.trans (by decide), h.2.2.trans (by decide)⟩

/-- The response chain emits exactly one `respCall` per walked interceptor, in
walk order. -/
theorem modifyResponseChain_events (l : List (Nat × Interceptor))
    (resp : Response) (orig : BaseRequest) :
    (modifyResponseChain l resp orig).2 =
      l.map (fun p => InterceptorEvent.respCall p.1) := by
  induction l generalizing resp with
  | nil => rfl
  | cons pi rest ih =>
      cases pi
      simp [modifyResponseChain, ih]

/-- A request chain that completes called every interceptor once, in list
order. -/
theorem modifyRequestChain_inl_events (its : List Interceptor) (idx : Nat)
    (r r' : BaseRequest) (evs : List InterceptorEvent)
    (h : modifyRequestChain its idx r = .inl (r', evs)) :
    evs = (List.range' idx its.length).map InterceptorEvent.reqCall := by
  induction its generalizing idx r r' evs with
  | nil =>
      simp [modifyRequestChain] at h
      simp [h.2]
  | cons i rest ih =>
      rw [modifyRequestChain] at h
      cases hm : i.modify_request r with
      | inr resp => rw [hm] at h; simp at h
      | inl r2 =>
          rw [hm] at h
          dsimp only at h
          cases hrec : modifyRequestChain rest (idx + 1) r2 with
          | inl pr =>
              rw [hrec] at h
              cases pr with
              | mk r3 evs3 =>
                  simp at h
                  rw [List.length_cons, List.range'_succ, List.map_cons, ← h.2,
                    ih (idx + 1) r2 r3 evs3 hrec]
          | inr pr => rw [hrec] at h; simp at h

/-- If the first `k` interceptors pass the request on and interceptor `k`
returns a `Response`, the chain short-circuits there with request events
`0..k` only. -/
theorem modifyRequestChain_shortcircuit (its : List Interceptor)
    (idx k : Nat) (req rk : BaseRequest) (evs0 : List InterceptorEvent)
    (resp : Response) (hk : k < its.length)
    (htake : modifyRequestChain (its.take k) idx req = .inl (rk, evs0))
    (hsc : (its.get ⟨k, hk⟩).modify_request rk = .inr resp) :
    modifyRequestChain its idx req =
      .inr (resp, (List.range' idx (k + 1)).map InterceptorEvent.reqCall) := by
  induction its generalizing idx k req rk evs0 with
  | nil => exact absurd hk (by simp)
  | cons i rest ih =>
      cases k with
      | zero =>
          simp [modifyRequestChain] at htake
          have hsc2 : i.modify_request req = .inr resp := by
            rw [htake.1]; exact hsc
          rw [modifyRequestChain, hsc2]
          simp [List.range'_succ]
      | succ k2 =>
          rw [List.take_succ_cons, modifyRequestChain] at htake
          cases hm : i.modify_request req with
          | inr resp2 => rw [hm] at htake; simp at htake
          | inl r2 =>
              rw [hm] at htake
              dsimp only at htake
              cases hrec : modifyRequestChain (rest.take k2) (idx + 1) r2 with
              | inl pr =>
                  rw [hrec] at htake
                  cases pr with
                  | mk r3 evs3 =>
                      simp at htake
                      have hk2 : k2 < rest.length := by
                        simpa using Nat.lt_of_succ_lt_succ hk
                      have hsc2 : (rest.get ⟨k2, hk2⟩).modify_request rk = .inr resp := hsc
                      have hstep := ih (idx + 1) k2 r2 rk evs3 hk2
                        (by rw [hrec, htake.1]) hsc2
                      rw [modifyRequestChain, hm]
                      dsimp only
                      rw [hstep]
                      simp [List.range'_succ]
              | inr pr => rw [hrec] at htake; simp at htake

/-- Request-call events never pass the response filter. -/
theorem filter_isRespCall_reqCalls (l : List Nat) :
    (l.map InterceptorEvent.reqCall).filter InterceptorEvent.isRespCall = [] := by
  induction l with
  | nil => rfl
  | cons x xs ih => simp [List.filter, InterceptorEvent.isRespCall, ih]

/-- Response-call events all pass the response filter. -/
theorem filter_isRespCall_respCalls (l : List Nat) :
    (l.map InterceptorEvent.respCall).filter InterceptorEvent.isRespCall =
      l.map InterceptorEvent.respCall := by
  induction l with
  | nil => rfl
  | cons x xs ih => simp [List.filter, InterceptorEvent.isRespCall, ih]

/-- The enumerated-reversed interceptor list indexes `n-1 .. 0`. -/
theorem enum_reverse_respCalls (its : List Interceptor) :
    (its.enum.reverse).map (fun p => InterceptorEvent.respCall p.1) =
      ((List.range its.length).reverse).map InterceptorEvent.respCall := by
  rw [← List.enum_map_fst its, ← List.map_reverse, List.map_map]
  rfl

/-- Claim C2: if interceptor `k`'s `modify_request` short-circuits with a
`Response`, then interceptors `k+1..n` never see `modify_request`, no HTTP
send occurs, and the `modify_response` chain still runs in full reverse order
`n-1..0` — exactly the response order of any run that does not short-circuit
(final conjunct). -/
theorem interceptor_shortcircuit_trace
    (transport : HTTPRequestParams → TransportResult) (its : List Interceptor)
    (req rk : BaseRequest) (resp : Response) (k : Nat)
    (evs0 : List InterceptorEvent) (hk : k < its.length)
    (htake : modifyRequestChain (its.take k) 0 req = .inl (rk, evs0))
    (hsc : (its.get ⟨k, hk⟩).modify_request rk = .inr resp) :
    (resolveRequest transport its req).2 =
      ((List.range (k + 1)).map InterceptorEvent.reqCall) ++
        (((List.range its.length).reverse).map InterceptorEvent.respCall) ∧
    InterceptorEvent.httpSend ∉ (resolveRequest transport its req).2 ∧
    (∀ j, k < j →
      InterceptorEvent.reqCall j ∉ (resolveRequest transport its req).2) ∧
    ∀ (transport2 : HTTPRequestParams → TransportResult) (req2 modified : BaseRequest)
      (evs2 : List InterceptorEvent) (status : Nat) (hs : PyDict String)
      (content : List Nat) (text : String),
      modifyRequestChain its 0 req2 = .inl (modified, evs2) →
      transport2 modified.request = .ok status hs content text →
      status < 500 →
      ((resolveRequest transport2 its req2).2.filter InterceptorEvent.isRespCall) =
        ((resolveRequest transport its req).2.filter InterceptorEvent.isRespCall) := by
  have hchain := modifyRequestChain_shortcircuit its 0 k req rk evs0 resp hk htake hsc
  have hev : (resolveRequest transport its req).2 =
      ((List.range (k + 1)).map InterceptorEvent.reqCall) ++
        (((List.range its.length).reverse).map InterceptorEvent.respCall) := by
    rw [resolveRequest, hchain]
    simp only [modifyResponseChain_events, enum_reverse_respCalls,
      List.range_eq_range']
  refine ⟨hev, ?_, ?_, ?_⟩
  · rw [hev]
    simp
  · intro j hj
    rw [hev]
    simp only [List.mem_append, List.mem_map, List.mem_range, List.mem_reverse]
    rintro (⟨i, hi, hie⟩ | ⟨i, hi, hie⟩)
    · cases hie; omega
    · cases hie
  · intro transport2 req2 modified evs2 status hs content text h2 htr hlt
    have hev2 : (resolveRequest transport2 its req2).2 =
        evs2 ++ [InterceptorEvent.httpSend] ++
          (((List.range its.length).reverse).map InterceptorEvent.respCall) := by
      rw [resolveRequest, h2]
      dsimp only
      rw [htr]
      dsimp only
      have hlt2 : ¬(500 ≤ status) := by omega
      simp only [hlt2, if_false, modifyResponseChain_events,
        enum_reverse_respCalls]
    rw [hev2, hev]
    rw [modifyRequestChain_inl_events its 0 req2 modified evs2 h2]
    simp only [List.filter_append, filter_isRespCall_reqCalls,
      filter_isRespCall_respCalls, List.range_eq_range']
    simp [List.filter, InterceptorEvent.isRespCall]

/-- Witness for C2: a pass-through interceptor followed by a short-circuiting
one — the trace shows request calls 0 and 1, no HTTP send, and response calls
in full reverse order 1, 0. -/
theorem interceptor_shortcircuit_trace_witness :
    let dummyReq := BaseRequest.mk .navigating
      { method := .GET, url := "https://w.example/" } "c" "" [] [] [] 9
      .skipCheck [] none
    let scResp := Response.mk 200 [] [] "cached" "https://w.example/" dummyReq
    let passI : Interceptor :=
      Interceptor.mk (fun r => .inl r) (fun resp _ => resp)
    let scI : Interceptor :=
      Interceptor.mk (fun _ => .inr scResp) (fun resp _ => resp)
    (resolveRequest (fun _ => TransportResult.timeout) [passI, scI] dummyReq).2 =
      [InterceptorEvent.reqCall 0, InterceptorEvent.reqCall 1,
       InterceptorEvent.respCall 1, InterceptorEvent.respCall 0] ∧
    InterceptorEvent.httpSend ∉
      (resolveRequest (fun _ => TransportResult.timeout) [passI, scI] dummyReq).2 := by
  intro dummyReq scResp passI scI
  have h := interceptor_shortcircuit_trace (fun _ => TransportResult.timeout)
    [passI, scI] dummyReq dummyReq scResp 1 [.reqCall 0] (by decide) rfl rfl
  exact ⟨h.1.trans (by decide), h.2.1⟩

/-- Unfolding of the lexicographic key order. -/
theorem keyLt_iff (a b : Int × Nat) :
    keyLt a b = true ↔ (a.1 < b.1 ∨ (a.1 = b.1 ∧ a.2 < b.2)) := by
  simp [keyLt]

/-- Negated unfolding of the key order. -/
theorem keyLt_eq_false_iff (a b : Int × Nat) :
    keyLt a b = false ↔ ¬(a.1 < b.1 ∨ (a.1 = b.1 ∧ a.2 < b.2)) := by
  rw [← keyLt_iff]
  cases h : keyLt a b <;> simp

/-- The selected minimum is one of the candidates. -/
theorem findMinEntry_mem {α : Type} (e : Int × Nat × α)
    (xs : List (Int × Nat × α)) : findMinEntry e xs ∈ e :: xs := by
  induction xs generalizing e with
  | nil => simp [findMinEntry]
  | cons x xs ih =>
      rw [findMinEntry]
      by_cases h : keyLt (entryKey x) (entryKey e) = true
      · rw [if_pos h]
        exact List.mem_cons.mpr (Or.inr (ih x))
      · rw [if_neg h]
        rcases List.mem_cons.mp (ih e) with h1 | h2
        · exact List.mem_cons.mpr (Or.inl h1)
        · exact List.mem_cons.mpr (Or.inr (List.mem_cons.mpr (Or.inr h2)))

/-- No candidate's key is below the selected minimum's key. -/
theorem findMinEntry_min {α : Type} (e : Int × Nat × α)
    (xs : List (Int × Nat × α)) :
    ∀ y ∈ e :: xs, keyLt (entryKey y) (entryKey (findMinEntry e xs)) = false := by
  induction xs generalizing e with
  | nil =>
      intro y hy
      simp at hy
      rw [hy, findMinEntry, keyLt_eq_false_iff]
      omega
  | cons x xs ih =>
      intro y hy
      rw [findMinEntry]
      by_cases h : keyLt (entryKey x) (entryKey e) = true
      · rw [if_pos h]
        rcases List.mem_cons.mp hy with hy1 | hy2
        · rw [hy1]
          have hx := ih x x (List.mem_cons_self x xs)
          rw [keyLt_eq_false_iff] at hx ⊢
          rw [keyLt_iff] at h
          omega
        · exact ih x y hy2
      · rw [if_neg h]
        have h' : keyLt (entryKey x) (entryKey e) = false := by
          cases hk : keyLt (entryKey x) (entryKey e)
          · rfl
          · exact absurd hk h
        rcases List.mem_cons.mp hy with hy1 | hy2
        · rw [hy1]
          exact ih e e (List.mem_cons_self e xs)
        · rcases List.mem_cons.mp hy2 with hy3 | hy4
          · rw [hy3]
            have he := ih e e (List.mem_cons_self e xs)
            rw [keyLt_eq_false_iff] at he ⊢
            rw [keyLt_eq_false_iff] at h'
            omega
          · exact ih e y (List.mem_cons.mpr (Or.inr hy4))

/-- With duplicate-free counters, the counter determines the entry. -/
theorem counter_unique {α : Type} (l : List (Int × Nat × α))
    (hnd : (l.map (fun e => e.2.1)).Nodup) (a b : Int × Nat × α)
    (ha : a ∈ l) (hb : b ∈ l) (hab : a.2.1 = b.2.1) : a = b := by
  induction l with
  | nil => cases ha
  | cons y ys ih =>
      rw [List.map_cons, List.nodup_cons] at hnd
      rcases List.mem_cons.mp ha with ha1 | ha2 <;>
        rcases List.mem_cons.mp hb with hb1 | hb2
      · rw [ha1, hb1]
      · exfalso
        apply hnd.1
        rw [ha1] at hab
        rw [hab]
        exact List.mem_map.mpr ⟨b, hb2, rfl⟩
      · exfalso
        apply hnd.1
        rw [hb1] at hab
        rw [← hab]
        exact List.mem_map.mpr ⟨a, ha2, rfl⟩
      · exact ih hnd.2 ha2 hb2

/-- Removing by counter yields a sublist. -/
theorem removeByCounter_sublist {α : Type} (c : Nat)
    (l : List (Int × Nat × α)) : (removeByCounter c l).Sublist l := by
  induction l with
  | nil => simp [removeByCounter]
  | cons y ys ih =>
      rw [removeByCounter]
      by_cases h : y.2.1 == c
      · rw [if_pos h]
        exact List.sublist_cons_self y ys
      · rw [if_neg h]
        exact List.Sublist.cons₂ y ih

/-- For a member `m` of a counter-duplicate-free queue, removing `m`'s counter
removes exactly `m`. -/
theorem removeByCounter_perm {α : Type} (l : List (Int × Nat × α))
    (m : Int × Nat × α) (hm : m ∈ l)
    (hnd : (l.map (fun e => e.2.1)).Nodup) :
    l.Perm (m :: removeByCounter m.2.1 l) := by
  induction l with
  | nil => cases hm
  | cons y ys ih =>
      rw [List.map_cons, List.nodup_cons] at hnd
      rw [removeByCounter]
      by_cases h : y.2.1 = m.2.1
      · have hym : y = m := by
          rcases List.mem_cons.mp hm with h1 | h2
          · rw [h1]
          · exfalso
            apply hnd.1
            rw [h]
            exact List.mem_map.mpr ⟨m, h2, rfl⟩
        rw [if_pos (beq_iff_eq.mpr h), hym]
      · have hm2 : m ∈ ys := by
          rcases List.mem_cons.mp hm with h1 | h2
          · exact absurd (by rw [h1] : y.2.1 = m.2.1) h
          · exact h2
        rw [if_neg (by simpa using h)]
        exact ((ih hm2 hnd.2).cons y).trans (List.Perm.swap m y _)

/-- Draining with enough fuel returns a permutation of the queue, sorted so
that no later entry's key is below an earlier entry's key. -/
theorem drainFuel_perm_sorted {α : Type} (fuel : Nat) :
    ∀ q : List (Int × Nat × α), q.length ≤ fuel →
      (q.map (fun e => e.2.1)).Nodup →
      (drainFuel fuel q).Perm q ∧
        List.Pairwise (fun a b => keyLt (entryKey b) (entryKey a) = false)
          (drainFuel fuel q) := by
  induction fuel with
  | zero =>
      intro q hf _
      have hq : q = [] := List.eq_nil_of_length_eq_zero (Nat.le_zero.mp hf)
      subst hq
      exact ⟨List.Perm.refl _, List.Pairwise.nil⟩
  | succ f ih =>
      intro q hf hnd
      cases q with
      | nil => exact ⟨List.Perm.refl _, List.Pairwise.nil⟩
      | cons x xs =>
          rw [drainFuel, heappop]
          have hmem : findMinEntry x xs ∈ x :: xs := findMinEntry_mem x xs
          have hperm : (x :: xs).Perm
              (findMinEntry x xs :: removeByCounter (findMinEntry x xs).2.1 (x :: xs)) :=
            removeByCounter_perm (x :: xs) (findMinEntry x xs) hmem hnd
          have hlen : (removeByCounter (findMinEntry x xs).2.1 (x :: xs)).length ≤ f := by
            have hle := hperm.length_eq
            rw [List.length_cons, List.length_cons] at hle
            rw [List.length_cons] at hf
            omega
          have hnds : ((removeByCounter (findMinEntry x xs).2.1 (x :: xs)).map
              (fun e => e.2.1)).Nodup :=
            ((removeByCounter_sublist _ _).map _).nodup hnd
          have hrec := ih (removeByCounter (findMinEntry x xs).2.1 (x :: xs)) hlen hnds
          constructor
          · exact ((hrec.1.cons (findMinEntry x xs)).trans hperm.symm)
          · rw [List.pairwise_cons]
            constructor
            · intro y hy
              have hy2 : y ∈ x :: xs := by
                have : y ∈ removeByCounter (findMinEntry x xs).2.1 (x :: xs) :=
                  hrec.1.mem_iff.mp hy
                exact (removeByCounter_sublist _ _).mem this
              exact findMinEntry_min x xs y hy2
            · exact hrec.2

/-- In a min-sorted, counter-duplicate-free pop sequence, an entry with a
strictly smaller key sits strictly earlier. -/
theorem counterPos_lt_of_keyLt {α : Type} (l : List (Int × Nat × α))
    (hs : List.Pairwise (fun a b => keyLt (entryKey b) (entryKey a) = false) l)
    (hnd : (l.map (fun e => e.2.1)).Nodup) (a b : Int × Nat × α)
    (ha : a ∈ l) (hb : b ∈ l)
    (hab : keyLt (entryKey a) (entryKey b) = true) :
    counterPos l a.2.1 < counterPos l b.2.1 := by
  induction l with
  | nil => cases ha
  | cons z zs ih =>
      have hzs := (List.pairwise_cons.mp hs).2
      have hhead := (List.pairwise_cons.mp hs).1
      have hndt : (zs.map (fun e => e.2.1)).Nodup := by
        rw [List.map_cons, List.nodup_cons] at hnd
        exact hnd.2
      by_cases hza : z.2.1 = a.2.1
      · have hzaeq : z = a := counter_unique (z :: zs) hnd z a
          (List.mem_cons_self z zs) ha hza
        have hbneq : b.2.1 ≠ z.2.1 := by
          intro hh
          have : b = z := counter_unique (z :: zs) hnd b z hb
            (List.mem_cons_self z zs) hh
          rw [this, hzaeq] at hab
          rw [keyLt_iff] at hab
          omega
        rw [counterPos, counterPos, List.findIdx_cons, List.findIdx_cons]
        have h1 : (z.2.1 == a.2.1) = true := beq_iff_eq.mpr hza
        have h2 : (z.2.1 == b.2.1) = true → False := by
          intro hh
          exact hbneq (beq_iff_eq.mp hh).symm
        cases hzb : (z.2.1 == b.2.1)
        · simp [h1, hzb]
        · exact absurd hzb h2
      · have ha2 : a ∈ zs := by
          rcases List.mem_cons.mp ha with h1 | h2
          · exact absurd ((by rw [h1] : a.2.1 = z.2.1)).symm hza
          · exact h2
        by_cases hzb : z.2.1 = b.2.1
        · exfalso
          have hbz : b = z := counter_unique (z :: zs) hnd b z hb
            (List.mem_cons_self z zs) hzb.symm
          have := hhead a ha2
          rw [hbz] at hab
          rw [keyLt_eq_false_iff] at this
          rw [keyLt_iff] at hab
          omega
        · have hb2 : b ∈ zs := by
            rcases List.mem_cons.mp hb with h1 | h2
            · exact absurd ((by rw [h1] : b.2.1 = z.2.1)).symm hzb
            · exact h2
          rw [counterPos, counterPos, List.findIdx_cons, List.findIdx_cons]
          have h1 : (z.2.1 == a.2.1) = false := by
            cases hh : (z.2.1 == a.2.1)
            · rfl
            · exact absurd (beq_iff_eq.mp hh) hza
          have h2 : (z.2.1 == b.2.1) = false := by
            cases hh : (z.2.1 == b.2.1)
            · rfl
            · exact absurd (beq_iff_eq.mp hh) hzb
          simp only [h1, h2, cond_false]
          have hrec := ih hzs hndt ha2 hb2
          simp only [counterPos] at hrec
          omega

/-- `pushAll` appends entries with consecutive counters. -/
theorem pushAll_eq {α : Type} (ps : List (Int × α)) :
    ∀ (q : List (Int × Nat × α)) (c : Nat),
      pushAll q c ps =
        (q ++ (List.enumFrom c ps).map (fun pr => (pr.2.1, pr.1, pr.2.2)),
         c + ps.length) := by
  induction ps with
  | nil => intro q c; simp [pushAll]
  | cons p rest ih =>
      intro q c
      rw [pushAll, ih]
      simp [heappush, List.enumFrom]
      omega

/-- Claim C3: enqueue a batch of `(priority, request)` pairs (counters
assigned in push order); in the pop order of the scheduler's queue, an entry
with strictly smaller priority comes out before one with larger priority, and
between equal priorities the one pushed first comes out first. -/
theorem priority_queue_pop_order {α : Type} (ps : List (Int × α)) (i j : Nat)
    (hi : i < ps.length) (hj : j < ps.length) :
    ((ps.get ⟨i, hi⟩).1 < (ps.get ⟨j, hj⟩).1 →
      counterPos (drain (pushAll [] 0 ps).1) i <
        counterPos (drain (pushAll [] 0 ps).1) j) ∧
    ((ps.get ⟨i, hi⟩).1 = (ps.get ⟨j, hj⟩).1 → i < j →
      counterPos (drain (pushAll [] 0 ps).1) i <
        counterPos (drain (pushAll [] 0 ps).1) j) := by
  have hq : (pushAll [] 0 ps).1 =
      (List.enumFrom 0 ps).map (fun pr => (pr.2.1, pr.1, pr.2.2)) := by
    rw [pushAll_eq]
    simp
  have hndq : (((pushAll [] 0 ps).1).map (fun e => e.2.1)).Nodup := by
    rw [hq, List.map_map]
    have heq : ((fun (e : Int × Nat × α) => e.2.1) ∘
        (fun (pr : Nat × (Int × α)) => (pr.2.1, pr.1, pr.2.2))) =
        Prod.fst := rfl
    rw [heq, List.enumFrom_map_fst]
    exact List.nodup_range' _ _
  have hlenq : ((pushAll [] 0 ps).1).length = ps.length := by
    rw [hq]
    simp
  have hgeti : ∀ (m : Nat) (hm : m < ps.length),
      ((ps.get ⟨m, hm⟩).1, m, (ps.get ⟨m, hm⟩).2) ∈ (pushAll [] 0 ps).1 := by
    intro m hm
    rw [hq]
    apply List.mem_map.mpr
    refine ⟨(m, ps.get ⟨m, hm⟩), ?_, rfl⟩
    have hm2 : m < (List.enumFrom 0 ps).length := by simpa using hm
    have : (List.enumFrom 0 ps).get ⟨m, hm2⟩ = (m, ps.get ⟨m, hm⟩) := by
      simp [List.getElem_enumFrom]
    exact this ▸ List.get_mem (List.enumFrom 0 ps) m hm2
  have hd := drainFuel_perm_sorted ((pushAll [] 0 ps).1).length
    (pushAll [] 0 ps).1 (Nat.le_refl _) hndq
  have hndd : ((drain (pushAll [] 0 ps).1).map (fun e => e.2.1)).Nodup :=
    ((hd.1.map _).nodup_iff).mpr hndq
  have hmema : ((ps.get ⟨i, hi⟩).1, i, (ps.get ⟨i, hi⟩).2) ∈
      drain (pushAll [] 0 ps).1 := hd.1.mem_iff.mpr (hgeti i hi)
  have hmemb : ((ps.get ⟨j, hj⟩).1, j, (ps.get ⟨j, hj⟩).2) ∈
      drain (pushAll [] 0 ps).1 := hd.1.mem_iff.mpr (hgeti j hj)
  constructor
  · intro hlt
    exact counterPos_lt_of_keyLt (drain (pushAll [] 0 ps).1) hd.2 hndd
      ((ps.get ⟨i, hi⟩).1, i, (ps.get ⟨i, hi⟩).2)
      ((ps.get ⟨j, hj⟩).1, j, (ps.get ⟨j, hj⟩).2) hmema hmemb
      (by rw [keyLt_iff]; exact Or.inl hlt)
  · intro heq hij
    exact counterPos_lt_of_keyLt (drain (pushAll [] 0 ps).1) hd.2 hndd
      ((ps.get ⟨i, hi⟩).1, i, (ps.get ⟨i, hi⟩).2)
      ((ps.get ⟨j, hj⟩).1, j, (ps.get ⟨j, hj⟩).2) hmema hmemb
      (by rw [keyLt_iff]; exact Or.inr ⟨heq, hij⟩)

/-- Witness for C3: three requests pushed with priorities 9, 1, 9 — the
priority-1 request (pushed second) drains before the first, and of the two
equal-priority requests the one pushed first drains first. -/
theorem priority_queue_pop_order_witness :
    let rA := BaseRequest.mk .navigating
      { method := .GET, url := "https://h/a" } "c" "" [] [] [] 9 .skipCheck [] none
    let rB := BaseRequest.mk .archive
      { method := .GET, url := "https://h/b" } "c" "" [] [] [] 1 .skipCheck [] none
    let rC := BaseRequest.mk .navigating
      { method := .GET, url := "https://h/s" } "c" "" [] [] [] 9 .skipCheck [] none
    let ps : List (Int × BaseRequest) := [(9, rA), (1, rB), (9, rC)]
    counterPos (drain (pushAll [] 0 ps).1) 1 <
      counterPos (drain (pushAll [] 0 ps).1) 0 ∧
    counterPos (drain (pushAll [] 0 ps).1) 0 <
      counterPos (drain (pushAll [] 0 ps).1) 2 := by
  intro rA rB rC ps
  exact ⟨(priority_queue_pop_order ps 1 0 (by decide) (by decide)).1 (by decide),
    (priority_queue_pop_order ps 0 2 (by decide) (by decide)).2 (by decide) (by decide)⟩


/-- When a scheme token is present, the caller's default scheme plays no
role in scheme extraction. -/
theorem splitScheme_default_irrelevant (url d : String)
    (h : (splitScheme url "").1 ≠ "") :
    splitScheme url d = splitScheme url "" := by
  unfold splitScheme at *
  cases hm : splitFirstAux (Char.ofNat 58) [] url.data with
  | none =>
      rw [hm] at h
      exact absurd rfl h
  | some pr =>
      cases pr with
      | mk front rest =>
          rw [hm] at h
          dsimp only at h ⊢
          by_cases hc : (front.length > 0 &&
              isAsciiAlpha (front.headD (Char.ofNat 0)) &&
              front.all isSchemeChar) = true
          · rw [if_pos hc, if_pos hc]
          · rw [if_neg hc] at h
            exact absurd rfl h

/-- `urlsplit` of a URL carrying its own scheme ignores the default
scheme. -/
theorem urlsplit_default_irrelevant (u d : String)
    (h : (urlsplit u "" true).scheme ≠ "") :
    urlsplit u d true = urlsplit u "" true := by
  unfold urlsplit
  rw [show removeUnsafe "" = "" from rfl] at *
  rw [splitScheme_default_irrelevant (removeUnsafe u) (removeUnsafe d) h]

/-- `urlparse` reports the scheme found by `urlsplit`. -/
theorem pyUrlparse_scheme_proj (u d : String) (af : Bool) :
    (pyUrlparse u d af).scheme = (urlsplit u d af).scheme := by
  rw [pyUrlparse]
  cases hc : (uses_params.contains (urlsplit u d af).scheme &&
      strContainsChar (urlsplit u d af).path (Char.ofNat 59)) <;>
    simp [hc]

/-- `urlparse` of a URL carrying its own scheme ignores the default
scheme. -/
theorem pyUrlparse_default_irrelevant (u d : String)
    (h : (pyUrlparse u "" true).scheme ≠ "") :
    pyUrlparse u d true = pyUrlparse u "" true := by
  have hs : (urlsplit u "" true).scheme ≠ "" := by
    rw [← pyUrlparse_scheme_proj]
    exact h
  rw [pyUrlparse, pyUrlparse, urlsplit_default_irrelevant u d hs]

/-- Every CPython scheme supporting relative joining also uses a network
location. -/
theorem uses_netloc_of_uses_relative (s : String)
    (h : uses_relative.contains s = true) : uses_netloc.contains s = true := by
  have hm : s ∈ uses_relative := by simpa using h
  fin_cases hm <;> decide



set_option maxHeartbeats 1000000 in
/-- Claim C6 (amended): URL resolution — percent-decode then re-encode the
path with safe `/` and the query with safe `=&`, then RFC-3986 join against
the context location — satisfies the round-trip law on normalized absolute
URLs: an absolute URL (scheme and netloc present) that is a fixed point of
the percent-encoding normalization and of parse/unparse reassembly resolves
to itself against every context; and resolving the relative URL `/p?q=x`
against `https://h/a/b` yields `https://h/p?q=x`. Un-normalized absolute URLs
can change under resolution (see the counterexample), which is what restricts
the law. -/
theorem resolve_url_roundtrip (u ctx : String)
    (hne : u ≠ "")
    (hre : reencodeUrl u = u)
    (hscheme : (pyUrlparse u "" true).scheme ≠ "")
    (hnetloc : (pyUrlparse u "" true).netloc ≠ "")
    (hunp : unparseOfParse u = u) :
    resolveUrlStr u ctx = u ∧
    resolveUrlStr "/p?q=x" "https://h/a/b" = "https://h/p?q=x" := by
  refine ⟨?_, by decide⟩
  rw [resolveUrlStr, hre]
  by_cases hctx : ctx = ""
  · subst hctx
    rw [urljoin, if_pos (show (("" : String) == "") = true from rfl)]
  · rw [urljoin]
    rw [if_neg (by simpa using hctx), if_neg (by simpa using hne)]
    dsimp only
    rw [pyUrlparse_default_irrelevant u (pyUrlparse ctx "" true).scheme hscheme]
    by_cases hd : ((pyUrlparse u "" true).scheme != (pyUrlparse ctx "" true).scheme ||
        !(uses_relative.contains (pyUrlparse u "" true).scheme)) = true
    · rw [if_pos hd]
    · rw [if_neg hd]
      cases hb2 : uses_relative.contains (pyUrlparse u "" true).scheme with
      | false =>
          exfalso
          simp at hb2
          simp [hb2] at hd
      | true =>
          have hnl : uses_netloc.contains (pyUrlparse u "" true).scheme = true :=
            uses_netloc_of_uses_relative _ hb2
          rw [if_pos (by rw [hnl]; simp [hnetloc] :
            (uses_netloc.contains (pyUrlparse u "" true).scheme &&
              (pyUrlparse u "" true).netloc != "") = true)]
          exact hunp


/-- Claim C6, counterexample: resolving the absolute URL `https://h/a%2Fb`
against the context `http://x` yields `https://h/a/b` — the normalization
percent-decodes `%2F` and re-encodes `/` as itself (it is in the safe set),
so the URL comes back changed, refuting "resolving an absolute URL against
any context location yields that same URL unchanged". -/
theorem resolve_url_roundtrip_counterexample :
    resolveUrlStr "https://h/a%2Fb" "http://x" ≠ "https://h/a%2Fb" ∧
    resolveUrlStr "https://h/a%2Fb" "http://x" = "https://h/a/b" :=
  ⟨by decide, by decide⟩

/-- Witness for C6 at a concrete normalized absolute URL and context. -/
theorem resolve_url_roundtrip_witness :
    resolveUrlStr "https://h/p?q=x" "http://other.example/dir/page" =
      "https://h/p?q=x" ∧
    resolveUrlStr "/p?q=x" "https://h/a/b" = "https://h/p?q=x" :=
  resolve_url_roundtrip "https://h/p?q=x" "http://other.example/dir/page"
    (by decide) (by decide) (by decide) (by decide) (by decide)

end Juriscraper
